import Mathlib

/-!
Shallow embedding of the order-matching and settlement core of the
diamond_backend sports-betting exchange (TypeScript/Prisma sources:
`src/services/matching-engine.service.ts`, `src/services/settlement.service.ts`,
`src/controllers/sport.controller.ts`, `src/controllers/admin.controller.ts`).

Monetary and odds values (Prisma `Decimal`) are modelled as rationals;
database rows are lists of records; every Prisma mutation inside a
`$transaction` becomes a pure state-passing function on a `DB` record.
A TypeScript `throw` inside a transaction rolls the whole transaction
back, so a fallible endpoint is a function `DB → Except ApiError (DB × β)`:
an `.error` result means the caller's state is unchanged.
Ledger `notes` strings are display-only and omitted.
-/

/-- Order side, `side ∈ {BACK, LAY}` (Prisma enum `Side`). -/
inductive Side where
  | BACK
  | LAY
deriving DecidableEq

/-- Order status (Prisma enum `OrderStatus`). -/
inductive OrderStatus where
  | OPEN
  | PARTIAL
  | MATCHED
  | CANCELLED
deriving DecidableEq

/-- Market status (Prisma enum `MarketStatus`). -/
inductive MarketStatus where
  | OPEN
  | SUSPENDED
  | CLOSED
  | SETTLED
deriving DecidableEq

/-- Match status (Prisma enum `MatchStatus`). -/
inductive MatchStatus where
  | UPCOMING
  | LIVE
  | COMPLETED
  | CANCELLED
deriving DecidableEq

/-- Ledger entry kinds used by the exchange core. -/
inductive LedgerKind where
  | CREDIT
  | DEBIT
  | EXPOSURE_LOCK
  | EXPOSURE_RELEASE
  | ORDER_SETTLE
deriving DecidableEq

/-- A user's wallet: `balance` and locked `exposure` (table `Wallet`). -/
structure Wallet where
  userId : Nat
  balance : ℚ
  exposure : ℚ
deriving DecidableEq

/-- Append-only ledger entry (table `Ledger`); the `balance` field is the
wallet balance recorded at write time. `notes` omitted (display only). -/
structure LedgerEntry where
  userId : Nat
  amount : ℚ
  kind : LedgerKind
  balance : ℚ
deriving DecidableEq

/-- Per-(user, market) exposure aggregate (table `MarketExposure`). -/
structure MarketExposure where
  userId : Nat
  marketId : Nat
  exposureAmount : ℚ
deriving DecidableEq

/-- A sporting match (table `Match`); only the fields the core reads. -/
structure MatchRec where
  id : Nat
  status : MatchStatus
deriving DecidableEq

/-- A market belonging to a match (table `Market`). -/
structure Market where
  id : Nat
  matchId : Nat
  status : MarketStatus
deriving DecidableEq

/-- A runner / selection of a market (table `Runner`).  Runner names are
matched case-insensitively against the score feed in the source; names are
abstracted to `Nat` here, which preserves the equality test. -/
structure Runner where
  id : Nat
  marketId : Nat
  name : Nat
  isWinner : Option Bool
deriving DecidableEq

/-- An order (table `Order`); `createdAt` is a logical timestamp. -/
structure Order where
  id : Nat
  userId : Nat
  marketId : Nat
  selectionId : Nat
  side : Side
  price : ℚ
  stake : ℚ
  matchedStake : ℚ
  remainingStake : ℚ
  lockedExposure : ℚ
  status : OrderStatus
  createdAt : Nat
deriving DecidableEq

/-- A trade between one BACK and one LAY order (table `Trade`). -/
structure Trade where
  id : Nat
  backOrderId : Nat
  layOrderId : Nat
  selectionId : Nat
  price : ℚ
  stake : ℚ
  settled : Bool
deriving DecidableEq

/-- The database state visible to the core, one field per Prisma table the
core touches, plus id/time counters standing for cuid/now(). -/
structure DB where
  wallets : List Wallet
  ledger : List LedgerEntry
  marketExposures : List MarketExposure
  sportMatches : List MatchRec
  markets : List Market
  runners : List Runner
  orders : List Order
  trades : List Trade
  nextOrderId : Nat
  nextTradeId : Nat
  now : Nat
deriving DecidableEq

/-- HTTP-style error thrown by controllers/services (`ApiError`). -/
structure ApiError where
  statusCode : Nat
  message : String
deriving DecidableEq

/-- `tx.wallet.update({ where: { userId }, data: f })` — `userId` is unique. -/
def updateWalletF (db : DB) (uid : Nat) (f : Wallet → Wallet) : DB :=
  { db with wallets := db.wallets.map fun w => if w.userId = uid then f w else w }

/-- `tx.ledger.create` — append an entry. -/
def addLedger (db : DB) (e : LedgerEntry) : DB :=
  { db with ledger := db.ledger ++ [e] }

/-- Look up a user's wallet (`userId` unique). -/
def findWallet (db : DB) (uid : Nat) : Option Wallet :=
  db.wallets.find? fun w => decide (w.userId = uid)

/-- The user's wallet balance (0 when no wallet row exists). -/
def walletBalance (db : DB) (uid : Nat) : ℚ :=
  ((findWallet db uid).map Wallet.balance).getD 0

/-- The user's wallet exposure (0 when no wallet row exists). -/
def walletExposure (db : DB) (uid : Nat) : ℚ :=
  ((findWallet db uid).map Wallet.exposure).getD 0

/-- Look up an order by id. -/
def findOrder (db : DB) (oid : Nat) : Option Order :=
  db.orders.find? fun o => decide (o.id = oid)

/-- Look up a market by id. -/
def findMarket (db : DB) (mid : Nat) : Option Market :=
  db.markets.find? fun m => decide (m.id = mid)

/-- Look up the `MarketExposure` row for a (user, market) pair (unique). -/
def findME (db : DB) (uid mid : Nat) : Option MarketExposure :=
  db.marketExposures.find? fun me => decide (me.userId = uid ∧ me.marketId = mid)

/-- Sum of a user's `MarketExposure.exposureAmount` over all markets. -/
def meSum (db : DB) (uid : Nat) : ℚ :=
  ((db.marketExposures.filter fun me => decide (me.userId = uid)).map
    MarketExposure.exposureAmount).sum

/-! ## Matching engine (`src/services/matching-engine.service.ts`) -/

/-- `ORDER BY price ASC, "createdAt" ASC` — scan order for resting LAY
candidates of an incoming BACK order. -/
def priceAscThenTime (a b : Order) : Prop :=
  a.price < b.price ∨ (a.price = b.price ∧ a.createdAt ≤ b.createdAt)

/-- `ORDER BY price DESC, "createdAt" ASC` — scan order for resting BACK
candidates of an incoming LAY order. -/
def priceDescThenTime (a b : Order) : Prop :=
  b.price < a.price ∨ (a.price = b.price ∧ a.createdAt ≤ b.createdAt)

instance : DecidableRel priceAscThenTime := fun a b => by
  unfold priceAscThenTime; infer_instance

instance : DecidableRel priceDescThenTime := fun a b => by
  unfold priceDescThenTime; infer_instance

instance : IsTotal Order priceAscThenTime := by
  constructor
  intro a b
  rcases lt_trichotomy a.price b.price with h | h | h
  · exact Or.inl (Or.inl h)
  · rcases Nat.le_total a.createdAt b.createdAt with h' | h'
    · exact Or.inl (Or.inr ⟨h, h'⟩)
    · exact Or.inr (Or.inr ⟨h.symm, h'⟩)
  · exact Or.inr (Or.inl h)

instance : IsTrans Order priceAscThenTime := by
  constructor
  intro a b c hab hbc
  rcases hab with hab | ⟨hab, hab'⟩
  · rcases hbc with hbc | ⟨hbc, _⟩
    · exact Or.inl (hab.trans hbc)
    · exact Or.inl (hbc ▸ hab)
  · rcases hbc with hbc | ⟨hbc, hbc'⟩
    · exact Or.inl (hab ▸ hbc)
    · exact Or.inr ⟨hab.trans hbc, hab'.trans hbc'⟩

instance : IsTotal Order priceDescThenTime := by
  constructor
  intro a b
  rcases lt_trichotomy a.price b.price with h | h | h
  · exact Or.inr (Or.inl h)
  · rcases Nat.le_total a.createdAt b.createdAt with h' | h'
    · exact Or.inl (Or.inr ⟨h, h'⟩)
    · exact Or.inr (Or.inr ⟨h.symm, h'⟩)
  · exact Or.inl (Or.inl h)

instance : IsTrans Order priceDescThenTime := by
  constructor
  intro a b c hab hbc
  rcases hab with hab | ⟨hab, hab'⟩
  · rcases hbc with hbc | ⟨hbc, _⟩
    · exact Or.inl (hbc.trans hab)
    · exact Or.inl (hbc ▸ hab)
  · rcases hbc with hbc | ⟨hbc, hbc'⟩
    · exact Or.inl (hab ▸ hbc)
    · exact Or.inr ⟨hab.trans hbc, hab'.trans hbc'⟩

/-- Candidate query of `matchBackOrder`: resting LAY orders on the same
selection with `price <= backPrice` and status OPEN or PARTIAL, ordered by
price ascending then creation time ascending. -/
def backCandidates (db : DB) (selectionId : Nat) (backPrice : ℚ) : List Order :=
  List.insertionSort priceAscThenTime
    (db.orders.filter fun o =>
      decide (o.selectionId = selectionId ∧ o.side = Side.LAY ∧
        (o.status = OrderStatus.OPEN ∨ o.status = OrderStatus.PARTIAL) ∧
        o.price ≤ backPrice))

/-- Candidate query of `matchLayOrder`: resting BACK orders on the same
selection with `price >= layPrice` and status OPEN or PARTIAL, ordered by
price descending then creation time ascending. -/
def layCandidates (db : DB) (selectionId : Nat) (layPrice : ℚ) : List Order :=
  List.insertionSort priceDescThenTime
    (db.orders.filter fun o =>
      decide (o.selectionId = selectionId ∧ o.side = Side.BACK ∧
        (o.status = OrderStatus.OPEN ∨ o.status = OrderStatus.PARTIAL) ∧
        layPrice ≤ o.price))

/-- Result of a matching run (`MatchResult` in the source). -/
structure MatchResult where
  matchedStake : ℚ
  remainingStake : ℚ
  trades : List Trade
deriving DecidableEq

/-- The `marketExposure.upsert` of `adjustExposure`, on the table rows:
when a row for (user, market) exists its `exposureAmount` is incremented
by `delta`; otherwise a row is created with the source's create branch
value, which stores `0` for a negative delta. -/
def upsertME (l : List MarketExposure) (userId marketId : Nat) (delta : ℚ) :
    List MarketExposure :=
  if l.any fun me => decide (me.userId = userId ∧ me.marketId = marketId) then
    l.map fun me =>
      if me.userId = userId ∧ me.marketId = marketId then
        { me with exposureAmount := me.exposureAmount + delta }
      else me
  else
    l ++ [({ userId := userId, marketId := marketId,
             exposureAmount := if delta < 0 then 0 else delta } : MarketExposure)]

/-- `adjustExposure` — upsert of the `MarketExposure` row for user+market.
The wallet's `exposure` field is NOT touched. -/
def adjustExposure (db : DB) (userId marketId : Nat) (delta : ℚ) : DB :=
  { db with marketExposures := upsertME db.marketExposures userId marketId delta }

/-- One iteration of the `matchBackOrder` candidate loop: create the trade
at the resting (LAY) candidate's price, update the candidate order's fill
state, and release the candidate's LAY exposure `(price − 1) × tradeStake`
via `adjustExposure` (negative delta). -/
def backMatchStep (incomingOrderId selectionId : Nat) (db : DB) (c : Order)
    (tradeStake : ℚ) : DB :=
  let t : Trade :=
    { id := db.nextTradeId, backOrderId := incomingOrderId, layOrderId := c.id,
      selectionId := selectionId, price := c.price, stake := tradeStake,
      settled := false }
  let newCandidateRemaining := c.remainingStake - tradeStake
  let db1 : DB :=
    { db with
      trades := db.trades ++ [t],
      nextTradeId := db.nextTradeId + 1,
      orders := db.orders.map fun o =>
        if o.id = c.id then
          { o with matchedStake := o.matchedStake + tradeStake,
                   remainingStake := newCandidateRemaining,
                   status := if newCandidateRemaining ≤ 0 then OrderStatus.MATCHED
                             else OrderStatus.PARTIAL }
        else o }
  adjustExposure db1 c.userId c.marketId (-((c.price - 1) * tradeStake))

/-- One iteration of the `matchLayOrder` candidate loop: trade at the
resting (BACK) candidate's price; release the candidate's BACK exposure
`tradeStake` via `adjustExposure` (negative delta). -/
def layMatchStep (incomingOrderId selectionId : Nat) (db : DB) (c : Order)
    (tradeStake : ℚ) : DB :=
  let t : Trade :=
    { id := db.nextTradeId, backOrderId := c.id, layOrderId := incomingOrderId,
      selectionId := selectionId, price := c.price, stake := tradeStake,
      settled := false }
  let newCandidateRemaining := c.remainingStake - tradeStake
  let db1 : DB :=
    { db with
      trades := db.trades ++ [t],
      nextTradeId := db.nextTradeId + 1,
      orders := db.orders.map fun o =>
        if o.id = c.id then
          { o with matchedStake := o.matchedStake + tradeStake,
                   remainingStake := newCandidateRemaining,
                   status := if newCandidateRemaining ≤ 0 then OrderStatus.MATCHED
                             else OrderStatus.PARTIAL }
        else o }
  adjustExposure db1 c.userId c.marketId (-tradeStake)

/-- The `for (const candidate of candidates)` loop of `matchBackOrder`:
stops when the incoming remaining stake is ≤ 0, otherwise fills
`tradeStake = remaining < candidate.remainingStake ? remaining : candidate.remainingStake`
against each candidate in turn.  Returns the updated state, the final
remaining stake and the trades created (in creation order). -/
def runBackMatch (incomingOrderId selectionId : Nat) :
    ℚ → List Order → DB → DB × ℚ × List Trade
  | remaining, [], db => (db, remaining, [])
  | remaining, c :: rest, db =>
    if remaining ≤ 0 then (db, remaining, [])
    else
      let tradeStake := if remaining < c.remainingStake then remaining else c.remainingStake
      let t : Trade :=
        { id := db.nextTradeId, backOrderId := incomingOrderId, layOrderId := c.id,
          selectionId := selectionId, price := c.price, stake := tradeStake,
          settled := false }
      let db1 := backMatchStep incomingOrderId selectionId db c tradeStake
      let res := runBackMatch incomingOrderId selectionId (remaining - tradeStake) rest db1
      (res.1, res.2.1, t :: res.2.2)

/-- The candidate loop of `matchLayOrder` (see `runBackMatch`). -/
def runLayMatch (incomingOrderId selectionId : Nat) :
    ℚ → List Order → DB → DB × ℚ × List Trade
  | remaining, [], db => (db, remaining, [])
  | remaining, c :: rest, db =>
    if remaining ≤ 0 then (db, remaining, [])
    else
      let tradeStake := if remaining < c.remainingStake then remaining else c.remainingStake
      let t : Trade :=
        { id := db.nextTradeId, backOrderId := c.id, layOrderId := incomingOrderId,
          selectionId := selectionId, price := c.price, stake := tradeStake,
          settled := false }
      let db1 := layMatchStep incomingOrderId selectionId db c tradeStake
      let res := runLayMatch incomingOrderId selectionId (remaining - tradeStake) rest db1
      (res.1, res.2.1, t :: res.2.2)

/-- `matchBackOrder` — match an incoming BACK order against resting LAY
orders (price-time priority, lowest lay price first). -/
def matchBackOrder (db : DB) (incomingOrderId selectionId : Nat)
    (backPrice stakeToMatch : ℚ) : DB × MatchResult :=
  let candidates := backCandidates db selectionId backPrice
  let res := runBackMatch incomingOrderId selectionId stakeToMatch candidates db
  (res.1, { matchedStake := stakeToMatch - res.2.1, remainingStake := res.2.1,
            trades := res.2.2 })

/-- `matchLayOrder` — match an incoming LAY order against resting BACK
orders (price-time priority, highest back price first). -/
def matchLayOrder (db : DB) (incomingOrderId selectionId : Nat)
    (layPrice stakeToMatch : ℚ) : DB × MatchResult :=
  let candidates := layCandidates db selectionId layPrice
  let res := runLayMatch incomingOrderId selectionId stakeToMatch candidates db
  (res.1, { matchedStake := stakeToMatch - res.2.1, remainingStake := res.2.1,
            trades := res.2.2 })

/-! ## Sport controller (`src/controllers/sport.controller.ts`) -/

/-- Result returned by `placeOrder`. -/
structure PlaceResult where
  orderId : Nat
  trades : List Trade
  matchedStake : ℚ
  remainingStake : ℚ
  status : OrderStatus
deriving DecidableEq

/-- The liability the order locks: `stake` for BACK,
`(price − 1) × stake` for LAY. -/
def orderLiability (side : Side) (price stake : ℚ) : ℚ :=
  match side with
  | Side.BACK => stake
  | Side.LAY => (price - 1) * stake

/-- Steps 4-6 of `placeOrder`'s transaction: lock the liability on the
wallet, create the OPEN order, and write the EXPOSURE_LOCK ledger entry
(recording the pre-lock balance, which the lock does not change). -/
def placeOrderLock (db : DB) (userId marketId selectionId : Nat) (side : Side)
    (price stake : ℚ) (wallet : Wallet) : DB :=
  let liability := orderLiability side price stake
  let db1 := updateWalletF db userId fun w =>
    { w with exposure := w.exposure + liability }
  let order : Order :=
    { id := db.nextOrderId, userId := userId, marketId := marketId,
      selectionId := selectionId, side := side, price := price,
      stake := stake, matchedStake := 0, remainingStake := stake,
      lockedExposure := liability, status := OrderStatus.OPEN,
      createdAt := db.now }
  let db2 : DB :=
    { db1 with
      orders := db1.orders ++ [order],
      nextOrderId := db.nextOrderId + 1,
      now := db.now + 1 }
  addLedger db2
    { userId := userId, amount := -liability,
      kind := LedgerKind.EXPOSURE_LOCK, balance := wallet.balance }

/-- The success path of `placeOrder` (the body of its `$transaction` after
validation): lock exposure and create the order (`placeOrderLock`), run
the matching engine, update the new order's fill state. -/
def placeOrderCore (db : DB) (userId marketId selectionId : Nat) (side : Side)
    (price stake : ℚ) (wallet : Wallet) : DB × PlaceResult :=
  let db3 := placeOrderLock db userId marketId selectionId side price stake wallet
  let oid := db.nextOrderId
  let matched : DB × MatchResult :=
    match side with
    | Side.BACK => matchBackOrder db3 oid selectionId price stake
    | Side.LAY => matchLayOrder db3 oid selectionId price stake
  let db4 := matched.1
  let mr := matched.2
  let finalStatus :=
    if mr.remainingStake ≤ 0 then OrderStatus.MATCHED
    else if 0 < mr.matchedStake then OrderStatus.PARTIAL
    else OrderStatus.OPEN
  let db5 : DB :=
    { db4 with
      orders := db4.orders.map fun o =>
        if o.id = oid then
          { o with matchedStake := mr.matchedStake,
                   remainingStake := mr.remainingStake,
                   status := finalStatus }
        else o }
  (db5,
   { orderId := oid, trades := mr.trades,
     matchedStake := mr.matchedStake,
     remainingStake := mr.remainingStake, status := finalStatus })

/-- `POST /api/sports/order` — `placeOrder`: validate input, require the
market OPEN and the runner in it, then run the transaction body
`placeOrderCore`: lock `liability` of wallet exposure (requiring
`balance − exposure ≥ liability`), create the order and an EXPOSURE_LOCK
ledger entry, run the matching engine, and record the fill state on the
new order.  A thrown `ApiError` aborts the transaction, so an `.error`
result carries no state. -/
def placeOrder (db : DB) (userId marketId selectionId : Nat) (side : Side)
    (price stake : ℚ) : Except ApiError (DB × PlaceResult) :=
  if stake ≤ 0 then Except.error ⟨400, "stake must be positive"⟩
  else if price ≤ 1 then Except.error ⟨400, "price must be more than 1.00"⟩
  else match findMarket db marketId with
  | none => Except.error ⟨404, "Market not found"⟩
  | some market =>
    if market.status ≠ MarketStatus.OPEN then
      Except.error ⟨400, "Market is not OPEN"⟩
    else match db.runners.find? fun r => decide (r.id = selectionId ∧ r.marketId = marketId) with
    | none => Except.error ⟨404, "Runner not found in this market"⟩
    | some _ =>
      match findWallet db userId with
      | none => Except.error ⟨404, "Wallet not found"⟩
      | some wallet =>
        let availableBalance := wallet.balance - wallet.exposure
        if availableBalance < orderLiability side price stake then
          Except.error ⟨400, "Insufficient balance"⟩
        else
          Except.ok (placeOrderCore db userId marketId selectionId side price stake wallet)

/-- Result returned by `cancelOrder`. -/
structure CancelResult where
  orderId : Nat
  releasedExposure : ℚ
  newExposure : ℚ
deriving DecidableEq

/-- `DELETE /api/sports/order/:orderId` — `cancelOrder`: only the owner's
OPEN/PARTIAL orders may be cancelled; releases the exposure of the
remaining (unmatched) stake from the wallet and writes an
EXPOSURE_RELEASE ledger entry.  (The wallet's `MarketExposure` row is not
touched by this endpoint.) -/
def cancelOrder (db : DB) (userId orderId : Nat) :
    Except ApiError (DB × CancelResult) :=
  match db.orders.find? fun o => decide (o.id = orderId ∧ o.userId = userId) with
  | none => Except.error ⟨404, "Order not found"⟩
  | some order =>
    if order.status ≠ OrderStatus.OPEN ∧ order.status ≠ OrderStatus.PARTIAL then
      Except.error ⟨400, "Cannot cancel an order with this status"⟩
    else
      let exposureToRelease :=
        match order.side with
        | Side.BACK => order.remainingStake
        | Side.LAY => (order.price - 1) * order.remainingStake
      let db1 :=
        { db with
          orders := db.orders.map fun o =>
            if o.id = order.id then { o with status := OrderStatus.CANCELLED }
            else o }
      let db2 := updateWalletF db1 userId fun w =>
        { w with exposure := w.exposure - exposureToRelease }
      let db3 := addLedger db2
        { userId := userId, amount := exposureToRelease,
          kind := LedgerKind.EXPOSURE_RELEASE,
          balance := walletBalance db2 userId }
      Except.ok (db3,
        { orderId := order.id, releasedExposure := exposureToRelease,
          newExposure := walletExposure db2 userId })

/-! ## Settlement service (`src/services/settlement.service.ts`) -/

/-- `creditWallet` — increment the wallet balance and write an
ORDER_SETTLE ledger entry carrying the post-credit balance.  (The
source's `marketId`/`notes` parameters are display-only.) -/
def creditWallet (db : DB) (userId : Nat) (amount : ℚ) : DB :=
  let db1 := updateWalletF db userId fun w =>
    { w with balance := w.balance + amount }
  addLedger db1
    { userId := userId, amount := amount, kind := LedgerKind.ORDER_SETTLE,
      balance := walletBalance db1 userId }

/-- `releaseExposure` — decrement the wallet's global exposure and the
(user, market) `MarketExposure` row by `amount`; no ledger entry. -/
def releaseExposure (db : DB) (userId marketId : Nat) (amount : ℚ) : DB :=
  let db1 := updateWalletF db userId fun w =>
    { w with exposure := w.exposure - amount }
  { db1 with
    marketExposures := db1.marketExposures.map fun me =>
      if me.userId = userId ∧ me.marketId = marketId then
        { me with exposureAmount := me.exposureAmount - amount }
      else me }

/-- Mark a trade settled (`tx.trade.update { settled: true }`). -/
def markTradeSettled (db : DB) (tradeId : Nat) : DB :=
  { db with
    trades := db.trades.map fun t =>
      if t.id = tradeId then { t with settled := true } else t }

/-- Settlement outcome selector of `settleTrade`. -/
inductive Outcome where
  | BACK_WINS
  | LAY_WINS
deriving DecidableEq

/-- `settleTrade` — settle one unsettled trade.  BACK_WINS: credit the
back user `stake + (price−1)·stake` and release the LAY user's exposure
`(price−1)·stake`.  LAY_WINS: credit the lay user `stake` and release the
BACK user's exposure `stake`.  The trade's back/lay orders are read
through their relations; a trade referencing missing orders is untouched
(foreign keys make this unreachable in the source). -/
def settleTrade (db : DB) (t : Trade) (outcome : Outcome) : DB :=
  match findOrder db t.backOrderId, findOrder db t.layOrderId with
  | some backOrder, some layOrder =>
    let profit := (t.price - 1) * t.stake
    let marketId := backOrder.marketId
    let db1 :=
      match outcome with
      | Outcome.BACK_WINS =>
        let dbA := creditWallet db backOrder.userId (t.stake + profit)
        releaseExposure dbA layOrder.userId marketId profit
      | Outcome.LAY_WINS =>
        let dbA := creditWallet db layOrder.userId t.stake
        releaseExposure dbA backOrder.userId marketId t.stake
    markTradeSettled db1 t.id
  | _, _ => db

/-- `refundTrade` — draw/abandoned: credit the back user `stake` and the
lay user `(price−1)·stake`; mark the trade settled.  No exposure is
released. -/
def refundTrade (db : DB) (t : Trade) : DB :=
  match findOrder db t.backOrderId, findOrder db t.layOrderId with
  | some backOrder, some layOrder =>
    let db1 := creditWallet db backOrder.userId t.stake
    let layLiability := (t.price - 1) * t.stake
    let db2 := creditWallet db1 layOrder.userId layLiability
    markTradeSettled db2 t.id
  | _, _ => db

/-- Cancel one OPEN/PARTIAL order during market close: set it CANCELLED,
release the remaining-stake exposure from the wallet and the
`MarketExposure` row, and write an EXPOSURE_RELEASE ledger entry.  This
body is shared verbatim between `SettlementService.cancelOpenOrders` and
the force-close path of `admin.controller.ts`. -/
def cancelOrderOnClose (db : DB) (marketId : Nat) (o : Order) : DB :=
  let exposureToRelease :=
    match o.side with
    | Side.BACK => o.remainingStake
    | Side.LAY => (o.price - 1) * o.remainingStake
  let db1 :=
    { db with
      orders := db.orders.map fun ord =>
        if ord.id = o.id then { ord with status := OrderStatus.CANCELLED }
        else ord }
  let db2 := updateWalletF db1 o.userId fun w =>
    { w with exposure := w.exposure - exposureToRelease }
  let db3 :=
    { db2 with
      marketExposures := db2.marketExposures.map fun me =>
        if me.userId = o.userId ∧ me.marketId = marketId then
          { me with exposureAmount := me.exposureAmount - exposureToRelease }
        else me }
  addLedger db3
    { userId := o.userId, amount := exposureToRelease,
      kind := LedgerKind.EXPOSURE_RELEASE,
      balance := walletBalance db3 o.userId }

/-- `cancelOpenOrders` — cancel every OPEN/PARTIAL order of the market and
release its remaining exposure. -/
def cancelOpenOrders (db : DB) (marketId : Nat) : DB :=
  let openOrders := db.orders.filter fun o =>
    decide (o.marketId = marketId ∧
      (o.status = OrderStatus.OPEN ∨ o.status = OrderStatus.PARTIAL))
  openOrders.foldl (fun acc o => cancelOrderOnClose acc marketId o) db

/-- Settle one unsettled trade of a market against the (already updated)
runner `isWinner` flags, as the trade loop of `settleMatch` does:
`isWinner = null` refunds, `true` is BACK_WINS, `false` is LAY_WINS. -/
def settleTradeByWinner (db : DB) (t : Trade) : DB :=
  match (db.runners.find? fun r => decide (r.id = t.selectionId)).map Runner.isWinner with
  | some none => refundTrade db t
  | some (some true) => settleTrade db t Outcome.BACK_WINS
  | some (some false) => settleTrade db t Outcome.LAY_WINS
  | none => db

/-- The per-market body of `settleMatch`: mark the market SETTLED (moving
directly from OPEN/SUSPENDED), set `isWinner` on each runner from the
winner's name, settle every unsettled trade on the market's selections,
then cancel remaining OPEN/PARTIAL orders. -/
def settleOneMarket (db : DB) (winnerName : Option Nat) (marketId : Nat) : DB :=
  let db1 : DB :=
    { db with
      markets := db.markets.map fun m =>
        if m.id = marketId then { m with status := MarketStatus.SETTLED }
        else m }
  let db2 : DB :=
    { db1 with
      runners := db1.runners.map fun r =>
        if r.marketId = marketId then
          { r with isWinner := some (decide (winnerName = some r.name)) }
        else r }
  let runnerIds := (db2.runners.filter fun r => decide (r.marketId = marketId)).map Runner.id
  let unsettled := db2.trades.filter fun t =>
    decide (t.selectionId ∈ runnerIds ∧ t.settled = false)
  let db3 := unsettled.foldl settleTradeByWinner db2
  cancelOpenOrders db3 marketId

/-- A team's entry in the external scores feed; the `score` string of the
source is already parsed to an integer. -/
structure ScoreEntry where
  name : Nat
  score : Int
deriving DecidableEq

/-- `settleMatch` — outcome resolution for one match: derive the winner
from the first two score entries (a draw leaves it `none`), mark the match
COMPLETED, and settle every OPEN/SUSPENDED market of the match via
`settleOneMarket`.  With fewer than two score entries nothing happens. -/
def settleMatch (db : DB) (matchId : Nat) (scores : List ScoreEntry) : DB :=
  match scores with
  | teamA :: teamB :: _ =>
    let winnerName : Option Nat :=
      if teamA.score > teamB.score then some teamA.name
      else if teamB.score > teamA.score then some teamB.name
      else none
    let db1 : DB :=
      { db with
        sportMatches := db.sportMatches.map fun m =>
          if m.id = matchId then { m with status := MatchStatus.COMPLETED }
          else m }
    let openMarketIds := ((db1.markets.filter fun m =>
      decide (m.matchId = matchId ∧
        (m.status = MarketStatus.OPEN ∨ m.status = MarketStatus.SUSPENDED))).map
      Market.id)
    openMarketIds.foldl (fun acc mid => settleOneMarket acc winnerName mid) db1
  | _ => db

/-! ## Admin controller (`src/controllers/admin.controller.ts`) -/

/-- `PATCH /api/admin/markets/:marketId/suspend` — `updateMarketStatus`:
the requested status must be one of OPEN, SUSPENDED, CLOSED (requesting
SETTLED is invalid input); the market's current status is not consulted,
the row is simply overwritten. -/
def updateMarketStatus (db : DB) (marketId : Nat) (status : MarketStatus) :
    Except ApiError (DB × MarketStatus) :=
  if status ≠ MarketStatus.OPEN ∧ status ≠ MarketStatus.SUSPENDED ∧
      status ≠ MarketStatus.CLOSED then
    Except.error ⟨400, "status must be OPEN, SUSPENDED, or CLOSED"⟩
  else match findMarket db marketId with
  | none => Except.error ⟨404, "Market not found"⟩
  | some _ =>
    let db1 : DB :=
      { db with
        markets := db.markets.map fun m =>
          if m.id = marketId then { m with status := status } else m }
    Except.ok (db1, status)

/-- Set a market's status (helper for the force-close path). -/
def setMarketStatus (db : DB) (marketId : Nat) (status : MarketStatus) : DB :=
  { db with
    markets := db.markets.map fun m =>
      if m.id = marketId then { m with status := status } else m }

/-- The trade-settlement step of `forceCloseMarket`: refund both sides
when the selection's `isWinner` is null (balance credits only, with
ORDER_SETTLE ledger entries), credit the back user `stake + profit` and
release the lay user's exposure `profit` when `isWinner` is true, credit
the lay user `stake` and release the back user's exposure `stake` when
false.  Exposure releases write ORDER_SETTLE ledger entries with a
negative amount and touch only the wallet's `exposure` field. -/
def forceSettleTrade (db : DB) (t : Trade) : DB :=
  match findOrder db t.backOrderId, findOrder db t.layOrderId with
  | some backOrder, some layOrder =>
    let isWinner := ((db.runners.find? fun r =>
      decide (r.id = t.selectionId)).map Runner.isWinner).getD none
    let db1 : DB :=
      match isWinner with
      | none =>
        let backStake := t.stake
        let layLiability := (t.price - 1) * t.stake
        let dbA := updateWalletF db backOrder.userId fun w =>
          { w with balance := w.balance + backStake }
        let dbB := addLedger dbA
          { userId := backOrder.userId, amount := backStake,
            kind := LedgerKind.ORDER_SETTLE,
            balance := walletBalance dbA backOrder.userId }
        let dbC := updateWalletF dbB layOrder.userId fun w =>
          { w with balance := w.balance + layLiability }
        addLedger dbC
          { userId := layOrder.userId, amount := layLiability,
            kind := LedgerKind.ORDER_SETTLE,
            balance := walletBalance dbC layOrder.userId }
      | some true =>
        let profit := (t.price - 1) * t.stake
        let backPayout := t.stake + profit
        let dbA := updateWalletF db backOrder.userId fun w =>
          { w with balance := w.balance + backPayout }
        let dbB := addLedger dbA
          { userId := backOrder.userId, amount := backPayout,
            kind := LedgerKind.ORDER_SETTLE,
            balance := walletBalance dbA backOrder.userId }
        let dbC := updateWalletF dbB layOrder.userId fun w =>
          { w with exposure := w.exposure - profit }
        addLedger dbC
          { userId := layOrder.userId, amount := -profit,
            kind := LedgerKind.ORDER_SETTLE,
            balance := walletBalance dbC layOrder.userId }
      | some false =>
        let dbA := updateWalletF db layOrder.userId fun w =>
          { w with balance := w.balance + t.stake }
        let dbB := addLedger dbA
          { userId := layOrder.userId, amount := t.stake,
            kind := LedgerKind.ORDER_SETTLE,
            balance := walletBalance dbA layOrder.userId }
        let dbC := updateWalletF dbB backOrder.userId fun w =>
          { w with exposure := w.exposure - t.stake }
        addLedger dbC
          { userId := backOrder.userId, amount := -t.stake,
            kind := LedgerKind.ORDER_SETTLE,
            balance := walletBalance dbC backOrder.userId }
    markTradeSettled db1 t.id
  | _, _ => db

/-- `POST /api/admin/markets/:marketId/force-close` — `forceCloseMarket`:
reject a missing market (404) or an already SETTLED one (400); otherwise
mark the market CLOSED, set each of its runners' `isWinner` from
`winnerSelectionIds` (an empty list means null = refund), cancel all
OPEN/PARTIAL orders releasing their remaining exposure, settle all
unsettled trades on the market's selections, and finally mark the market
SETTLED.  Returns (cancelled order count, settled trade count). -/
def forceCloseMarket (db : DB) (marketId : Nat) (winnerSelectionIds : List Nat) :
    Except ApiError (DB × Nat × Nat) :=
  match findMarket db marketId with
  | none => Except.error ⟨404, "Market not found"⟩
  | some market =>
    if market.status = MarketStatus.SETTLED then
      Except.error ⟨400, "Market is already settled"⟩
    else
      let db1 := setMarketStatus db marketId MarketStatus.CLOSED
      let db2 : DB :=
        { db1 with
          runners := db1.runners.map fun r =>
            if r.marketId = marketId then
              { r with
                isWinner :=
                  if winnerSelectionIds.length > 0 then
                    some (decide (r.id ∈ winnerSelectionIds))
                  else none }
            else r }
      let openOrders := db2.orders.filter fun o =>
        decide (o.marketId = marketId ∧
          (o.status = OrderStatus.OPEN ∨ o.status = OrderStatus.PARTIAL))
      let db3 := openOrders.foldl (fun acc o => cancelOrderOnClose acc marketId o) db2
      let runnerIds := ((db3.runners.filter fun r =>
        decide (r.marketId = marketId)).map Runner.id)
      let tradesToSettle := db3.trades.filter fun t =>
        decide (t.selectionId ∈ runnerIds ∧ t.settled = false)
      let db4 := tradesToSettle.foldl forceSettleTrade db3
      let db5 := setMarketStatus db4 marketId MarketStatus.SETTLED
      Except.ok (db5, openOrders.length, tradesToSettle.length)

/-! ## Observers and concrete scenario states -/

/-- Whether an endpoint call succeeded. -/
def isOkE {α : Type} : Except ApiError α → Bool
  | Except.ok _ => true
  | Except.error _ => false

/-- The post-state of a successful endpoint call, when present. -/
def okState {α : Type} : Except ApiError (DB × α) → Option DB
  | Except.ok (db, _) => some db
  | Except.error _ => none

/-- The post-state of an endpoint call, defaulting to the pre-state on
error (transaction rollback). -/
def okStateD {α : Type} (db : DB) (e : Except ApiError (DB × α)) : DB :=
  (okState e).getD db

/-- The owner of an order, looked up by id. -/
def orderOwner (db : DB) (oid : Nat) : Option Nat :=
  (findOrder db oid).map Order.userId

/-- A market's current status. -/
def marketStatusOf (db : DB) (mid : Nat) : Option MarketStatus :=
  (findMarket db mid).map Market.status

/-- Base test state: users 1 and 2 with 1000 balance and no exposure, one
LIVE match 10 with one OPEN market 20 holding runners 30 and 31. -/
def baseDB : DB :=
  { wallets := [⟨1, 1000, 0⟩, ⟨2, 1000, 0⟩],
    ledger := [],
    marketExposures := [],
    sportMatches := [⟨10, MatchStatus.LIVE⟩],
    markets := [⟨20, 10, MarketStatus.OPEN⟩],
    runners := [⟨30, 20, 7, none⟩, ⟨31, 20, 8, none⟩],
    orders := [],
    trades := [],
    nextOrderId := 100,
    nextTradeId := 200,
    now := 0 }

/-- After user 1 places BACK @2 × 100 on runner 30 (book empty, no match). -/
def dbPlace1 : DB := okStateD baseDB (placeOrder baseDB 1 20 30 Side.BACK 2 100)

/-- After user 2 then places LAY @2 × 100 on runner 30 (full match). -/
def dbMatched : DB := okStateD dbPlace1 (placeOrder dbPlace1 2 20 30 Side.LAY 2 100)

/-- After the matched market is force-closed with no winners (refund-all). -/
def dbRefunded : DB := okStateD dbMatched (forceCloseMarket dbMatched 20 [])

/-- After user 1 places a resting LAY @2 × 100, then user 1 also places a
BACK @2 × 100 on the same runner (self-match). -/
def dbSelfLay : DB := okStateD baseDB (placeOrder baseDB 1 20 30 Side.LAY 2 100)

/-- Self-match state: the BACK order matches user 1's own LAY order. -/
def dbSelfMatched : DB := okStateD dbSelfLay (placeOrder dbSelfLay 1 20 30 Side.BACK 2 100)

/-- After user 2 places a resting LAY @3 × 10 (locks `(3−1)×10 = 20`). -/
def dbLay3 : DB := okStateD baseDB (placeOrder baseDB 2 20 30 Side.LAY 3 10)

/-- After user 1's BACK @3 × 10 fully matches that resting LAY. -/
def dbLay3Matched : DB := okStateD dbLay3 (placeOrder dbLay3 1 20 30 Side.BACK 3 10)

/-- A directly-constructed settlement scenario: users 1 (BACK) and 2 (LAY)
each have 1000 balance and 100 exposure left locked from placement, with
one fully matched, unsettled trade at price 2 × stake 100 on runner 30. -/
def settleDB : DB :=
  { wallets := [⟨1, 1000, 100⟩, ⟨2, 1000, 100⟩],
    ledger := [],
    marketExposures := [⟨1, 20, 100⟩, ⟨2, 20, 100⟩],
    sportMatches := [⟨10, MatchStatus.LIVE⟩],
    markets := [⟨20, 10, MarketStatus.OPEN⟩],
    runners := [⟨30, 20, 7, some true⟩, ⟨31, 20, 8, some false⟩],
    orders :=
      [⟨100, 1, 20, 30, Side.BACK, 2, 100, 100, 0, 100, OrderStatus.MATCHED, 0⟩,
       ⟨101, 2, 20, 30, Side.LAY, 2, 100, 100, 0, 100, OrderStatus.MATCHED, 1⟩],
    trades := [⟨200, 100, 101, 30, 2, 100, false⟩],
    nextOrderId := 102,
    nextTradeId := 201,
    now := 2 }

/-- The unsettled trade of `settleDB`. -/
def settleTrade0 : Trade := ⟨200, 100, 101, 30, 2, 100, false⟩

/-- The base market moved to CLOSED by the admin status endpoint. -/
def dbClosed : DB := setMarketStatus baseDB 20 MarketStatus.CLOSED

/-! ## Counterexamples -/

/-- C1 counterexample: settling the `settleDB` trade (price 2, stake 100)
with BACK_WINS credits the BACK user `2·100 = 200` but leaves the BACK
user's wallet exposure at 100 — the claimed decrement of `s` (to 0) never
happens; only the LAY side's exposure is released. -/
theorem C1_counterexample :
    walletBalance (settleTrade settleDB settleTrade0 Outcome.BACK_WINS) 1 = 1200 ∧
    walletExposure (settleTrade settleDB settleTrade0 Outcome.BACK_WINS) 1 = 100 ∧
    walletExposure settleDB 1 - settleTrade0.stake = 0 ∧ (100 : ℚ) ≠ 0 := by
  norm_num [settleTrade, settleDB, settleTrade0, findOrder, creditWallet,
    releaseExposure, markTradeSettled, updateWalletF, addLedger, walletBalance,
    walletExposure, findWallet, List.find?]

/-- C2 counterexample: user 2's resting LAY @3 × 10 locks wallet exposure
20; when user 1's BACK fully matches it, one trade is created but user 2's
wallet exposure is still 20 (the claimed decrement by `(3−1)×10 = 20`
never reaches the wallet), and the `MarketExposure` row is created at 0
rather than decremented. -/
theorem C2_counterexample :
    dbLay3Matched.trades.length = 1 ∧
    walletExposure dbLay3 2 = 20 ∧
    walletExposure dbLay3Matched 2 = 20 ∧
    findME dbLay3Matched 2 20 = some ⟨2, 20, 0⟩ ∧
    (20 : ℚ) ≠ 20 - (3 - 1) * 10 := by
  norm_num [dbLay3Matched, dbLay3, baseDB, okStateD, okState, isOkE, placeOrder, placeOrderCore, placeOrderLock,
    matchBackOrder, matchLayOrder, backCandidates, layCandidates, runBackMatch,
    runLayMatch, backMatchStep, layMatchStep, adjustExposure, upsertME, orderLiability,
    updateWalletF, addLedger, findWallet, walletBalance, walletExposure,
    findOrder, findMarket, findME, meSum, priceAscThenTime, priceDescThenTime,
    List.find?, List.filter]

/-- C4 counterexample: one successful order placement (BACK @2 × 100)
raises user 1's wallet exposure to 100 while the sum of user 1's
`MarketExposure` rows stays 0 — placement never mirrors the lock into
`MarketExposure`, so the claimed equality fails after a core operation. -/
theorem C4_counterexample :
    isOkE (placeOrder baseDB 1 20 30 Side.BACK 2 100) = true ∧
    walletExposure dbPlace1 1 = 100 ∧
    meSum dbPlace1 1 = 0 ∧ (100 : ℚ) ≠ 0 := by
  norm_num [dbPlace1, baseDB, okStateD, okState, isOkE, placeOrder, placeOrderCore, placeOrderLock,
    matchBackOrder, matchLayOrder, backCandidates, layCandidates, runBackMatch,
    runLayMatch, backMatchStep, layMatchStep, adjustExposure, upsertME, orderLiability,
    updateWalletF, addLedger, findWallet, walletBalance, walletExposure,
    findOrder, findMarket, findME, meSum, priceAscThenTime, priceDescThenTime,
    List.find?, List.filter]

/-- C5 counterexample: users 1 and 2 fully match one trade (no other
activity), then the market is force-closed with no winners (refund-all).
Both balance credits happen (1000 → 1100), but user 1's wallet exposure
remains 100, not the claimed 0. -/
theorem C5_counterexample :
    isOkE (forceCloseMarket dbMatched 20 []) = true ∧
    dbMatched.trades.length = 1 ∧
    (findOrder dbMatched 100).map Order.status = some OrderStatus.MATCHED ∧
    walletBalance dbRefunded 1 = 1100 ∧
    walletExposure dbRefunded 1 = 100 ∧ (100 : ℚ) ≠ 0 := by
  norm_num [dbRefunded, dbMatched, dbPlace1, baseDB, okStateD, okState, isOkE,
    placeOrder, placeOrderCore, placeOrderLock, forceCloseMarket, matchBackOrder, matchLayOrder, backCandidates,
    layCandidates, runBackMatch, runLayMatch, backMatchStep, layMatchStep,
    adjustExposure, upsertME, orderLiability, updateWalletF, addLedger, findWallet,
    walletBalance, walletExposure, findOrder, findMarket, findME, meSum,
    priceAscThenTime, priceDescThenTime, creditWallet, releaseExposure,
    markTradeSettled, cancelOrderOnClose, setMarketStatus, forceSettleTrade,
    List.find?, List.filter, List.foldl]
  rfl

/-- C6 counterexample: user 1 rests a LAY @2 × 100 and then submits a
BACK @2 × 100 on the same selection; the engine matches them, producing a
trade whose BACK and LAY orders both belong to user 1. -/
theorem C6_counterexample :
    dbSelfMatched.trades.map
      (fun t => (orderOwner dbSelfMatched t.backOrderId,
                 orderOwner dbSelfMatched t.layOrderId)) = [(some 1, some 1)] := by
  norm_num [dbSelfMatched, dbSelfLay, baseDB, okStateD, okState, isOkE,
    placeOrder, placeOrderCore, placeOrderLock, matchBackOrder, matchLayOrder, backCandidates, layCandidates,
    runBackMatch, runLayMatch, backMatchStep, layMatchStep, adjustExposure, upsertME,
    orderLiability, updateWalletF, addLedger, findWallet, walletBalance,
    walletExposure, findOrder, findMarket, findME, meSum, orderOwner,
    priceAscThenTime, priceDescThenTime, List.find?, List.filter]

/-- C7 counterexample: on a CLOSED market, the admin status endpoint
accepts the transition back to OPEN and overwrites the row — no
invalid-state error, and the market does not stay unchanged. -/
theorem C7_counterexample :
    isOkE (updateMarketStatus dbClosed 20 MarketStatus.OPEN) = true ∧
    marketStatusOf dbClosed 20 = some MarketStatus.CLOSED ∧
    marketStatusOf (okStateD dbClosed (updateMarketStatus dbClosed 20 MarketStatus.OPEN)) 20 =
      some MarketStatus.OPEN := by
  norm_num [dbClosed, baseDB, okStateD, okState, isOkE, updateMarketStatus,
    setMarketStatus, marketStatusOf, findMarket, List.find?]

/-! ## Lemma kit: row lookups through record updates -/

/-- `find?` commutes with a `map` that does not change the predicate. -/
theorem find?_map_pred_eq {α : Type} (g : α → α) (p : α → Bool)
    (hp : ∀ x, p (g x) = p x) :
    ∀ l : List α, (l.map g).find? p = (l.find? p).map g := by
  intro l
  induction l with
  | nil => rfl
  | cons x xs ih =>
    simp only [List.map_cons, List.find?]
    rw [hp x]
    cases hpx : p x <;> simp [ih]

theorem findWallet_updateWalletF (db : DB) (u : Nat) (f : Wallet → Wallet)
    (hid : ∀ w, (f w).userId = w.userId) (v : Nat) :
    findWallet (updateWalletF db u f) v =
      (findWallet db v).map (fun w => if w.userId = u then f w else w) := by
  unfold findWallet updateWalletF
  apply find?_map_pred_eq
  intro w
  by_cases hw : w.userId = u <;> simp [hw, hid]

theorem walletBalance_updateWalletF (db : DB) (u : Nat) (f : Wallet → Wallet)
    (hid : ∀ w, (f w).userId = w.userId)
    (hbal : ∀ w, (f w).balance = w.balance) (v : Nat) :
    walletBalance (updateWalletF db u f) v = walletBalance db v := by
  unfold walletBalance
  rw [findWallet_updateWalletF db u f hid v]
  cases h : findWallet db v with
  | none => rfl
  | some w =>
    by_cases hw : w.userId = u <;> simp [hw, hbal]

theorem walletExposure_updateWalletF (db : DB) (u : Nat) (f : Wallet → Wallet)
    (hid : ∀ w, (f w).userId = w.userId)
    (hexp : ∀ w, (f w).exposure = w.exposure) (v : Nat) :
    walletExposure (updateWalletF db u f) v = walletExposure db v := by
  unfold walletExposure
  rw [findWallet_updateWalletF db u f hid v]
  cases h : findWallet db v with
  | none => rfl
  | some w =>
    by_cases hw : w.userId = u <;> simp [hw, hexp]

theorem findWallet_userId (db : DB) (v : Nat) (w : Wallet)
    (h : findWallet db v = some w) : w.userId = v := by
  have := List.find?_some h
  simpa using this

theorem findWallet_updateWalletF_self (db : DB) (u : Nat) (f : Wallet → Wallet)
    (hid : ∀ w, (f w).userId = w.userId) (w : Wallet)
    (h : findWallet db u = some w) :
    findWallet (updateWalletF db u f) u = some (f w) := by
  rw [findWallet_updateWalletF db u f hid u, h]
  have hw := findWallet_userId db u w h
  simp [hw]

theorem findWallet_updateWalletF_ne (db : DB) (u : Nat) (f : Wallet → Wallet)
    (hid : ∀ w, (f w).userId = w.userId) (v : Nat) (hvu : v ≠ u) :
    findWallet (updateWalletF db u f) v = findWallet db v := by
  rw [findWallet_updateWalletF db u f hid v]
  cases h : findWallet db v with
  | none => rfl
  | some w =>
    have hw := findWallet_userId db v w h
    simp [hw, hvu]

theorem findMarket_map_status (db : DB) (g : Market → Market)
    (hid : ∀ m, (g m).id = m.id) (mid : Nat) :
    findMarket { db with markets := db.markets.map g } mid =
      (findMarket db mid).map g := by
  unfold findMarket
  apply find?_map_pred_eq
  intro m
  simp [hid]

theorem findMarket_id (db : DB) (mid : Nat) (m : Market)
    (h : findMarket db mid = some m) : m.id = mid := by
  have := List.find?_some h
  simpa using this

/-! ## Lemma kit: frame facts (which tables each helper touches) -/

theorem addLedger_wallets (db : DB) (e : LedgerEntry) :
    (addLedger db e).wallets = db.wallets := rfl

theorem addLedger_marketExposures (db : DB) (e : LedgerEntry) :
    (addLedger db e).marketExposures = db.marketExposures := rfl

theorem addLedger_markets (db : DB) (e : LedgerEntry) :
    (addLedger db e).markets = db.markets := rfl

theorem updateWalletF_ledger (db : DB) (u : Nat) (f : Wallet → Wallet) :
    (updateWalletF db u f).ledger = db.ledger := rfl

theorem updateWalletF_marketExposures (db : DB) (u : Nat) (f : Wallet → Wallet) :
    (updateWalletF db u f).marketExposures = db.marketExposures := rfl

theorem updateWalletF_markets (db : DB) (u : Nat) (f : Wallet → Wallet) :
    (updateWalletF db u f).markets = db.markets := rfl

theorem adjustExposure_wallets (db : DB) (u m : Nat) (d : ℚ) :
    (adjustExposure db u m d).wallets = db.wallets := rfl

theorem adjustExposure_ledger (db : DB) (u m : Nat) (d : ℚ) :
    (adjustExposure db u m d).ledger = db.ledger := rfl

theorem adjustExposure_markets (db : DB) (u m : Nat) (d : ℚ) :
    (adjustExposure db u m d).markets = db.markets := rfl

theorem backMatchStep_wallets (i s : Nat) (db : DB) (c : Order) (ts : ℚ) :
    (backMatchStep i s db c ts).wallets = db.wallets := by
  unfold backMatchStep
  rw [adjustExposure_wallets]

theorem layMatchStep_wallets (i s : Nat) (db : DB) (c : Order) (ts : ℚ) :
    (layMatchStep i s db c ts).wallets = db.wallets := by
  unfold layMatchStep
  rw [adjustExposure_wallets]

theorem backMatchStep_ledger (i s : Nat) (db : DB) (c : Order) (ts : ℚ) :
    (backMatchStep i s db c ts).ledger = db.ledger := by
  unfold backMatchStep
  rw [adjustExposure_ledger]

theorem layMatchStep_ledger (i s : Nat) (db : DB) (c : Order) (ts : ℚ) :
    (layMatchStep i s db c ts).ledger = db.ledger := by
  unfold layMatchStep
  rw [adjustExposure_ledger]

theorem runBackMatch_wallets (i s : Nat) :
    ∀ (cands : List Order) (rem : ℚ) (db : DB),
      (runBackMatch i s rem cands db).1.wallets = db.wallets := by
  intro cands
  induction cands with
  | nil => intro rem db; rfl
  | cons c rest ih =>
    intro rem db
    unfold runBackMatch
    split
    · rfl
    · simp only []
      rw [ih, backMatchStep_wallets]

theorem runLayMatch_wallets (i s : Nat) :
    ∀ (cands : List Order) (rem : ℚ) (db : DB),
      (runLayMatch i s rem cands db).1.wallets = db.wallets := by
  intro cands
  induction cands with
  | nil => intro rem db; rfl
  | cons c rest ih =>
    intro rem db
    unfold runLayMatch
    split
    · rfl
    · simp only []
      rw [ih, layMatchStep_wallets]

theorem runBackMatch_ledger (i s : Nat) :
    ∀ (cands : List Order) (rem : ℚ) (db : DB),
      (runBackMatch i s rem cands db).1.ledger = db.ledger := by
  intro cands
  induction cands with
  | nil => intro rem db; rfl
  | cons c rest ih =>
    intro rem db
    unfold runBackMatch
    split
    · rfl
    · simp only []
      rw [ih, backMatchStep_ledger]

theorem runLayMatch_ledger (i s : Nat) :
    ∀ (cands : List Order) (rem : ℚ) (db : DB),
      (runLayMatch i s rem cands db).1.ledger = db.ledger := by
  intro cands
  induction cands with
  | nil => intro rem db; rfl
  | cons c rest ih =>
    intro rem db
    unfold runLayMatch
    split
    · rfl
    · simp only []
      rw [ih, layMatchStep_ledger]

theorem matchBackOrder_wallets (db : DB) (i s : Nat) (p st : ℚ) :
    (matchBackOrder db i s p st).1.wallets = db.wallets := by
  unfold matchBackOrder
  exact runBackMatch_wallets i s _ st db

theorem matchLayOrder_wallets (db : DB) (i s : Nat) (p st : ℚ) :
    (matchLayOrder db i s p st).1.wallets = db.wallets := by
  unfold matchLayOrder
  exact runLayMatch_wallets i s _ st db

theorem walletBalance_congr (db1 db2 : DB) (h : db1.wallets = db2.wallets)
    (v : Nat) : walletBalance db1 v = walletBalance db2 v := by
  unfold walletBalance findWallet
  rw [h]

theorem walletExposure_congr (db1 db2 : DB) (h : db1.wallets = db2.wallets)
    (v : Nat) : walletExposure db1 v = walletExposure db2 v := by
  unfold walletExposure findWallet
  rw [h]

theorem findWallet_congr (db1 db2 : DB) (h : db1.wallets = db2.wallets)
    (v : Nat) : findWallet db1 v = findWallet db2 v := by
  unfold findWallet
  rw [h]

theorem creditWallet_wallets (db : DB) (u : Nat) (a : ℚ) :
    (creditWallet db u a).wallets =
      (updateWalletF db u fun w => { w with balance := w.balance + a }).wallets := rfl

theorem creditWallet_marketExposures (db : DB) (u : Nat) (a : ℚ) :
    (creditWallet db u a).marketExposures = db.marketExposures := rfl

theorem creditWallet_markets (db : DB) (u : Nat) (a : ℚ) :
    (creditWallet db u a).markets = db.markets := rfl

theorem walletBalance_creditWallet_self (db : DB) (u : Nat) (a : ℚ)
    (h : (findWallet db u).isSome = true) :
    walletBalance (creditWallet db u a) u = walletBalance db u + a := by
  obtain ⟨w, hw⟩ := Option.isSome_iff_exists.mp h
  have h1 : findWallet (creditWallet db u a) u =
      some { w with balance := w.balance + a } := by
    rw [findWallet_congr _ _ (creditWallet_wallets db u a)]
    exact findWallet_updateWalletF_self db u (fun w => { w with balance := w.balance + a }) (fun _ => rfl) w hw
  unfold walletBalance
  rw [h1, hw]
  rfl

theorem walletBalance_creditWallet_ne (db : DB) (u : Nat) (a : ℚ) (v : Nat)
    (hvu : v ≠ u) :
    walletBalance (creditWallet db u a) v = walletBalance db v := by
  unfold walletBalance
  rw [findWallet_congr _ _ (creditWallet_wallets db u a),
    findWallet_updateWalletF_ne db u (fun w => { w with balance := w.balance + a }) (fun _ => rfl) v hvu]

theorem walletExposure_creditWallet (db : DB) (u : Nat) (a : ℚ) (v : Nat) :
    walletExposure (creditWallet db u a) v = walletExposure db v := by
  unfold walletExposure
  rw [findWallet_congr _ _ (creditWallet_wallets db u a),
    findWallet_updateWalletF db u (fun w => { w with balance := w.balance + a }) (fun _ => rfl) v]
  cases h : findWallet db v with
  | none => rfl
  | some w => by_cases hw : w.userId = u <;> simp [hw]

theorem findWallet_creditWallet_ne (db : DB) (u : Nat) (a : ℚ) (v : Nat)
    (hvu : v ≠ u) :
    findWallet (creditWallet db u a) v = findWallet db v := by
  rw [findWallet_congr _ _ (creditWallet_wallets db u a)]
  exact findWallet_updateWalletF_ne db u (fun w => { w with balance := w.balance + a }) (fun _ => rfl) v hvu

theorem releaseExposure_wallets (db : DB) (u m : Nat) (a : ℚ) :
    (releaseExposure db u m a).wallets =
      (updateWalletF db u fun w => { w with exposure := w.exposure - a }).wallets := rfl

theorem releaseExposure_markets (db : DB) (u m : Nat) (a : ℚ) :
    (releaseExposure db u m a).markets = db.markets := rfl

theorem walletExposure_releaseExposure_self (db : DB) (u m : Nat) (a : ℚ)
    (h : (findWallet db u).isSome = true) :
    walletExposure (releaseExposure db u m a) u = walletExposure db u - a := by
  obtain ⟨w, hw⟩ := Option.isSome_iff_exists.mp h
  have h1 : findWallet (releaseExposure db u m a) u =
      some { w with exposure := w.exposure - a } := by
    rw [findWallet_congr _ _ (releaseExposure_wallets db u m a)]
    exact findWallet_updateWalletF_self db u (fun w => { w with exposure := w.exposure - a }) (fun _ => rfl) w hw
  unfold walletExposure
  rw [h1, hw]
  rfl

theorem walletExposure_releaseExposure_ne (db : DB) (u m : Nat) (a : ℚ) (v : Nat)
    (hvu : v ≠ u) :
    walletExposure (releaseExposure db u m a) v = walletExposure db v := by
  unfold walletExposure
  rw [findWallet_congr _ _ (releaseExposure_wallets db u m a),
    findWallet_updateWalletF_ne db u (fun w => { w with exposure := w.exposure - a }) (fun _ => rfl) v hvu]

theorem walletBalance_releaseExposure (db : DB) (u m : Nat) (a : ℚ) (v : Nat) :
    walletBalance (releaseExposure db u m a) v = walletBalance db v := by
  unfold walletBalance
  rw [findWallet_congr _ _ (releaseExposure_wallets db u m a),
    findWallet_updateWalletF db u (fun w => { w with exposure := w.exposure - a }) (fun _ => rfl) v]
  cases h : findWallet db v with
  | none => rfl
  | some w => by_cases hw : w.userId = u <;> simp [hw]

theorem markTradeSettled_wallets (db : DB) (i : Nat) :
    (markTradeSettled db i).wallets = db.wallets := rfl

theorem markTradeSettled_marketExposures (db : DB) (i : Nat) :
    (markTradeSettled db i).marketExposures = db.marketExposures := rfl

theorem markTradeSettled_markets (db : DB) (i : Nat) :
    (markTradeSettled db i).markets = db.markets := rfl

/-- The BACK order of `settleDB`. -/
def backOrd0 : Order :=
  ⟨100, 1, 20, 30, Side.BACK, 2, 100, 100, 0, 100, OrderStatus.MATCHED, 0⟩

/-- The LAY order of `settleDB`. -/
def layOrd0 : Order :=
  ⟨101, 2, 20, 30, Side.LAY, 2, 100, 100, 0, 100, OrderStatus.MATCHED, 1⟩

/-- C1 (amended): per-trade settlement moves funds one-sidedly.  With
`isWinner = true` (BACK_WINS) the BACK user's balance is credited
`p·s` but that user's wallet exposure is UNCHANGED, while the LAY user's
wallet exposure is decremented by `(p−1)·s` with no balance credit; with
`isWinner = false` (LAY_WINS) the LAY user's balance is credited `s` with
their wallet exposure UNCHANGED, while the BACK user's wallet exposure is
decremented by `s` with no balance credit.  (Only the losing side's
exposure is released; the claimed release of the winner's exposure does
not happen.) -/
theorem C1_amended (db : DB) (t : Trade) (bo lo : Order)
    (hb : findOrder db t.backOrderId = some bo)
    (hl : findOrder db t.layOrderId = some lo)
    (hwb : (findWallet db bo.userId).isSome = true)
    (hwl : (findWallet db lo.userId).isSome = true)
    (hne : bo.userId ≠ lo.userId) :
    (walletBalance (settleTrade db t Outcome.BACK_WINS) bo.userId =
       walletBalance db bo.userId + t.price * t.stake ∧
     walletExposure (settleTrade db t Outcome.BACK_WINS) bo.userId =
       walletExposure db bo.userId ∧
     walletBalance (settleTrade db t Outcome.BACK_WINS) lo.userId =
       walletBalance db lo.userId ∧
     walletExposure (settleTrade db t Outcome.BACK_WINS) lo.userId =
       walletExposure db lo.userId - (t.price - 1) * t.stake) ∧
    (walletBalance (settleTrade db t Outcome.LAY_WINS) lo.userId =
       walletBalance db lo.userId + t.stake ∧
     walletExposure (settleTrade db t Outcome.LAY_WINS) lo.userId =
       walletExposure db lo.userId ∧
     walletBalance (settleTrade db t Outcome.LAY_WINS) bo.userId =
       walletBalance db bo.userId ∧
     walletExposure (settleTrade db t Outcome.LAY_WINS) bo.userId =
       walletExposure db bo.userId - t.stake) := by
  have hB : settleTrade db t Outcome.BACK_WINS =
      markTradeSettled
        (releaseExposure (creditWallet db bo.userId (t.stake + (t.price - 1) * t.stake))
          lo.userId bo.marketId ((t.price - 1) * t.stake)) t.id := by
    unfold settleTrade
    rw [hb, hl]
  have hL : settleTrade db t Outcome.LAY_WINS =
      markTradeSettled
        (releaseExposure (creditWallet db lo.userId t.stake)
          bo.userId bo.marketId t.stake) t.id := by
    unfold settleTrade
    rw [hb, hl]
  have hne' : lo.userId ≠ bo.userId := fun h => hne h.symm
  refine ⟨⟨?_, ?_, ?_, ?_⟩, ⟨?_, ?_, ?_, ?_⟩⟩
  · rw [hB, walletBalance_congr _ _ (markTradeSettled_wallets _ _),
      walletBalance_releaseExposure,
      walletBalance_creditWallet_self db bo.userId _ hwb]
    ring
  · rw [hB, walletExposure_congr _ _ (markTradeSettled_wallets _ _),
      walletExposure_releaseExposure_ne _ _ _ _ _ hne,
      walletExposure_creditWallet]
  · rw [hB, walletBalance_congr _ _ (markTradeSettled_wallets _ _),
      walletBalance_releaseExposure,
      walletBalance_creditWallet_ne _ _ _ _ hne']
  · rw [hB, walletExposure_congr _ _ (markTradeSettled_wallets _ _),
      walletExposure_releaseExposure_self _ _ _ _ ?h1,
      walletExposure_creditWallet]
    case h1 =>
      rw [findWallet_creditWallet_ne _ _ _ _ hne']
      exact hwl
  · rw [hL, walletBalance_congr _ _ (markTradeSettled_wallets _ _),
      walletBalance_releaseExposure,
      walletBalance_creditWallet_self db lo.userId _ hwl]
  · rw [hL, walletExposure_congr _ _ (markTradeSettled_wallets _ _),
      walletExposure_releaseExposure_ne _ _ _ _ _ hne',
      walletExposure_creditWallet]
  · rw [hL, walletBalance_congr _ _ (markTradeSettled_wallets _ _),
      walletBalance_releaseExposure,
      walletBalance_creditWallet_ne _ _ _ _ hne]
  · rw [hL, walletExposure_congr _ _ (markTradeSettled_wallets _ _),
      walletExposure_releaseExposure_self _ _ _ _ ?h2,
      walletExposure_creditWallet]
    case h2 =>
      rw [findWallet_creditWallet_ne _ _ _ _ hne]
      exact hwb

/-- Witness for `C1_amended` at the concrete `settleDB` scenario. -/
theorem C1_amended_witness :
    (findOrder settleDB settleTrade0.backOrderId = some backOrd0 ∧
     findOrder settleDB settleTrade0.layOrderId = some layOrd0 ∧
     (findWallet settleDB backOrd0.userId).isSome = true ∧
     (findWallet settleDB layOrd0.userId).isSome = true ∧
     backOrd0.userId ≠ layOrd0.userId) ∧
    ((walletBalance (settleTrade settleDB settleTrade0 Outcome.BACK_WINS) backOrd0.userId =
        walletBalance settleDB backOrd0.userId + settleTrade0.price * settleTrade0.stake ∧
      walletExposure (settleTrade settleDB settleTrade0 Outcome.BACK_WINS) backOrd0.userId =
        walletExposure settleDB backOrd0.userId ∧
      walletBalance (settleTrade settleDB settleTrade0 Outcome.BACK_WINS) layOrd0.userId =
        walletBalance settleDB layOrd0.userId ∧
      walletExposure (settleTrade settleDB settleTrade0 Outcome.BACK_WINS) layOrd0.userId =
        walletExposure settleDB layOrd0.userId -
          (settleTrade0.price - 1) * settleTrade0.stake) ∧
     (walletBalance (settleTrade settleDB settleTrade0 Outcome.LAY_WINS) layOrd0.userId =
        walletBalance settleDB layOrd0.userId + settleTrade0.stake ∧
      walletExposure (settleTrade settleDB settleTrade0 Outcome.LAY_WINS) layOrd0.userId =
        walletExposure settleDB layOrd0.userId ∧
      walletBalance (settleTrade settleDB settleTrade0 Outcome.LAY_WINS) backOrd0.userId =
        walletBalance settleDB backOrd0.userId ∧
      walletExposure (settleTrade settleDB settleTrade0 Outcome.LAY_WINS) backOrd0.userId =
        walletExposure settleDB backOrd0.userId - settleTrade0.stake)) :=
  ⟨⟨rfl, rfl, rfl, rfl, by decide⟩,
   C1_amended settleDB settleTrade0 backOrd0 layOrd0 rfl rfl rfl rfl (by decide)⟩

/-! ## Lemma kit: MarketExposure upsert semantics -/

theorem find?_append_of_none {α : Type} (l1 l2 : List α) (p : α → Bool)
    (h : l1.find? p = none) : (l1 ++ l2).find? p = l2.find? p := by
  induction l1 with
  | nil => rfl
  | cons x xs ih =>
    simp only [List.find?] at h ⊢
    cases hpx : p x
    · rw [hpx] at h
      simp only [List.cons_append, List.find?, hpx]
      exact ih h
    · rw [hpx] at h
      exact absurd h (by simp)

theorem findME_congr (db1 db2 : DB)
    (h : db1.marketExposures = db2.marketExposures) (u m : Nat) :
    findME db1 u m = findME db2 u m := by
  unfold findME
  rw [h]

theorem findME_key (db : DB) (u m : Nat) (me : MarketExposure)
    (h : findME db u m = some me) : me.userId = u ∧ me.marketId = m := by
  have := List.find?_some h
  simpa using this

theorem findMEL_upsertME_of_some (l : List MarketExposure) (u m : Nat) (d : ℚ)
    (me : MarketExposure)
    (h : (l.find? fun x => decide (x.userId = u ∧ x.marketId = m)) = some me) :
    ((upsertME l u m d).find? fun x => decide (x.userId = u ∧ x.marketId = m)) =
      some { me with exposureAmount := me.exposureAmount + d } := by
  have hmem : me ∈ l := List.mem_of_find?_eq_some h
  have hkey : me.userId = u ∧ me.marketId = m := by
    have := List.find?_some h
    simpa using this
  have hany : (l.any fun x => decide (x.userId = u ∧ x.marketId = m)) = true :=
    List.any_eq_true.mpr ⟨me, hmem, by simp [hkey.1, hkey.2]⟩
  unfold upsertME
  rw [if_pos hany]
  have hmap := find?_map_pred_eq
    (fun x : MarketExposure =>
      if x.userId = u ∧ x.marketId = m then
        { x with exposureAmount := x.exposureAmount + d } else x)
    (fun x => decide (x.userId = u ∧ x.marketId = m))
    (fun x => by by_cases hx : x.userId = u ∧ x.marketId = m <;> simp [hx])
    l
  rw [hmap, h]
  simp [hkey]

theorem findMEL_upsertME_of_none (l : List MarketExposure) (u m : Nat) (d : ℚ)
    (h : (l.find? fun x => decide (x.userId = u ∧ x.marketId = m)) = none) :
    ((upsertME l u m d).find? fun x => decide (x.userId = u ∧ x.marketId = m)) =
      some ⟨u, m, if d < 0 then 0 else d⟩ := by
  have hall : (l.any fun x => decide (x.userId = u ∧ x.marketId = m)) = false := by
    rw [List.any_eq_false]
    intro x hx hpx
    exact (List.find?_eq_none.mp h x hx) hpx
  unfold upsertME
  rw [if_neg (by rw [hall]; simp)]
  rw [find?_append_of_none _ _ _ h]
  simp [List.find?]

theorem findME_adjustExposure_of_some (db : DB) (u m : Nat) (d : ℚ)
    (me : MarketExposure) (h : findME db u m = some me) :
    findME (adjustExposure db u m d) u m =
      some { me with exposureAmount := me.exposureAmount + d } :=
  findMEL_upsertME_of_some db.marketExposures u m d me h

theorem findME_adjustExposure_of_none (db : DB) (u m : Nat) (d : ℚ)
    (h : findME db u m = none) :
    findME (adjustExposure db u m d) u m =
      some ⟨u, m, if d < 0 then 0 else d⟩ :=
  findMEL_upsertME_of_none db.marketExposures u m d h

theorem backMatchStep_marketExposures (i s : Nat) (db : DB) (c : Order) (ts : ℚ) :
    (backMatchStep i s db c ts).marketExposures =
      upsertME db.marketExposures c.userId c.marketId (-((c.price - 1) * ts)) := rfl

theorem layMatchStep_marketExposures (i s : Nat) (db : DB) (c : Order) (ts : ℚ) :
    (layMatchStep i s db c ts).marketExposures =
      upsertME db.marketExposures c.userId c.marketId (-ts) := rfl

/-- The resting LAY order of `meDB`. -/
def restLay0 : Order :=
  ⟨100, 2, 20, 30, Side.LAY, 3, 10, 0, 10, 20, OrderStatus.OPEN, 0⟩

/-- A state with one resting LAY @3 × 10 by user 2 whose (user 2, market
20) `MarketExposure` row already exists at 20. -/
def meDB : DB :=
  { wallets := [⟨1, 1000, 0⟩, ⟨2, 1000, 20⟩],
    ledger := [],
    marketExposures := [⟨2, 20, 20⟩],
    sportMatches := [⟨10, MatchStatus.LIVE⟩],
    markets := [⟨20, 10, MarketStatus.OPEN⟩],
    runners := [⟨30, 20, 7, none⟩, ⟨31, 20, 8, none⟩],
    orders := [restLay0],
    trades := [],
    nextOrderId := 101,
    nextTradeId := 200,
    now := 1 }

/-- C2 (amended): at match time no wallet is touched at all — the wallets
table is unchanged by `matchBackOrder` and `matchLayOrder`.  The matched
amount reaches only the resting user's `MarketExposure` row, through the
`adjustExposure` upsert: an existing row is incremented by the (negative)
delta — `−(restingPrice − 1) × tradeStake` for a resting LAY,
`−tradeStake` for a resting BACK — while a missing row is created with
amount 0 (not the negative delta). -/
theorem C2_amended :
    (∀ (db : DB) (i s : Nat) (p st : ℚ),
       (matchBackOrder db i s p st).1.wallets = db.wallets) ∧
    (∀ (db : DB) (i s : Nat) (p st : ℚ),
       (matchLayOrder db i s p st).1.wallets = db.wallets) ∧
    (∀ (db : DB) (u m : Nat) (d : ℚ) (me : MarketExposure),
       findME db u m = some me →
       findME (adjustExposure db u m d) u m =
         some { me with exposureAmount := me.exposureAmount + d }) ∧
    (∀ (db : DB) (u m : Nat) (d : ℚ),
       findME db u m = none →
       findME (adjustExposure db u m d) u m =
         some ⟨u, m, if d < 0 then 0 else d⟩) ∧
    (∀ (db : DB) (i s : Nat) (p st : ℚ) (c : Order) (me : MarketExposure),
       backCandidates db s p = [c] → 0 < st →
       findME db c.userId c.marketId = some me →
       findME (matchBackOrder db i s p st).1 c.userId c.marketId =
         some { me with exposureAmount := me.exposureAmount -
           (c.price - 1) * (if st < c.remainingStake then st else c.remainingStake) }) ∧
    (∀ (db : DB) (i s : Nat) (p st : ℚ) (c : Order) (me : MarketExposure),
       layCandidates db s p = [c] → 0 < st →
       findME db c.userId c.marketId = some me →
       findME (matchLayOrder db i s p st).1 c.userId c.marketId =
         some { me with exposureAmount := me.exposureAmount -
           (if st < c.remainingStake then st else c.remainingStake) }) := by
  refine ⟨matchBackOrder_wallets, matchLayOrder_wallets,
    findME_adjustExposure_of_some, findME_adjustExposure_of_none, ?_, ?_⟩
  · intro db i s p st c me hc hst hme
    have h1 : (matchBackOrder db i s p st).1 =
        backMatchStep i s db c
          (if st < c.remainingStake then st else c.remainingStake) := by
      unfold matchBackOrder
      rw [hc]
      simp only [runBackMatch, if_neg (not_le.mpr hst)]
    rw [h1]
    show List.find? _ (upsertME db.marketExposures c.userId c.marketId _) = _
    rw [findMEL_upsertME_of_some db.marketExposures c.userId c.marketId _ me hme]
    simp [sub_eq_add_neg]
  · intro db i s p st c me hc hst hme
    have h1 : (matchLayOrder db i s p st).1 =
        layMatchStep i s db c
          (if st < c.remainingStake then st else c.remainingStake) := by
      unfold matchLayOrder
      rw [hc]
      simp only [runLayMatch, if_neg (not_le.mpr hst)]
    rw [h1]
    show List.find? _ (upsertME db.marketExposures c.userId c.marketId _) = _
    rw [findMEL_upsertME_of_some db.marketExposures c.userId c.marketId _ me hme]
    simp [sub_eq_add_neg]

/-- Witness for `C2_amended` at the concrete `meDB` scenario. -/
theorem C2_amended_witness :
    ((matchBackOrder meDB 101 30 3 10).1.wallets = meDB.wallets) ∧
    (backCandidates meDB 30 3 = [restLay0] ∧ (0 : ℚ) < 10 ∧
     findME meDB restLay0.userId restLay0.marketId = some ⟨2, 20, 20⟩) ∧
    findME (matchBackOrder meDB 101 30 3 10).1 restLay0.userId restLay0.marketId =
      some { userId := 2, marketId := 20,
             exposureAmount := (20 : ℚ) - (restLay0.price - 1) *
               (if (10 : ℚ) < restLay0.remainingStake then 10
                else restLay0.remainingStake) } := by
  have hc : backCandidates meDB 30 3 = [restLay0] := by
    norm_num [backCandidates, meDB, restLay0, priceAscThenTime, List.filter]
  refine ⟨C2_amended.1 meDB 101 30 3 10, ⟨hc, by norm_num, rfl⟩, ?_⟩
  exact C2_amended.2.2.2.2.1 meDB 101 30 3 10 restLay0 ⟨2, 20, 20⟩ hc (by norm_num) rfl

theorem runBackMatch_trades_nil (i s : Nat) (rem : ℚ) (cands : List Order)
    (db : DB) (h : (runBackMatch i s rem cands db).2.2 = []) :
    (runBackMatch i s rem cands db).1 = db := by
  cases cands with
  | nil => rfl
  | cons c rest =>
    by_cases hr : rem ≤ 0
    · simp only [runBackMatch, if_pos hr]
    · simp only [runBackMatch, if_neg hr] at h
      exact absurd h (List.cons_ne_nil _ _)

theorem runLayMatch_trades_nil (i s : Nat) (rem : ℚ) (cands : List Order)
    (db : DB) (h : (runLayMatch i s rem cands db).2.2 = []) :
    (runLayMatch i s rem cands db).1 = db := by
  cases cands with
  | nil => rfl
  | cons c rest =>
    by_cases hr : rem ≤ 0
    · simp only [runLayMatch, if_pos hr]
    · simp only [runLayMatch, if_neg hr] at h
      exact absurd h (List.cons_ne_nil _ _)

theorem matchBackOrder_trades_nil (db : DB) (i s : Nat) (p st : ℚ)
    (h : (matchBackOrder db i s p st).2.trades = []) :
    (matchBackOrder db i s p st).1 = db := by
  unfold matchBackOrder at *
  exact runBackMatch_trades_nil i s st _ db h

theorem matchLayOrder_trades_nil (db : DB) (i s : Nat) (p st : ℚ)
    (h : (matchLayOrder db i s p st).2.trades = []) :
    (matchLayOrder db i s p st).1 = db := by
  unfold matchLayOrder at *
  exact runLayMatch_trades_nil i s st _ db h

theorem runBackMatch_marketExposures_nil (i s : Nat) (rem : ℚ)
    (cands : List Order) (db : DB)
    (h : (runBackMatch i s rem cands db).2.2 = []) :
    (runBackMatch i s rem cands db).1.marketExposures = db.marketExposures := by
  rw [runBackMatch_trades_nil i s rem cands db h]

/-- The wallets table after `placeOrderCore` is the pre-state's with the
liability locked on the placing user (matching never touches wallets). -/
theorem placeOrderCore_wallets (db : DB) (u mid sel : Nat) (side : Side)
    (pr st : ℚ) (wallet : Wallet) :
    (placeOrderCore db u mid sel side pr st wallet).1.wallets =
      (updateWalletF db u fun w =>
        { w with exposure := w.exposure + orderLiability side pr st }).wallets := by
  unfold placeOrderCore
  cases side
  · exact matchBackOrder_wallets _ _ _ _ _
  · exact matchLayOrder_wallets _ _ _ _ _

/-- `placeOrderCore` appends exactly the EXPOSURE_LOCK entry to the ledger
(matching writes no ledger rows). -/
theorem placeOrderCore_ledger (db : DB) (u mid sel : Nat) (side : Side)
    (pr st : ℚ) (wallet : Wallet) :
    (placeOrderCore db u mid sel side pr st wallet).1.ledger =
      db.ledger ++ [⟨u, -(orderLiability side pr st),
        LedgerKind.EXPOSURE_LOCK, wallet.balance⟩] := by
  unfold placeOrderCore
  cases side
  · exact runBackMatch_ledger _ _ _ _ _
  · exact runLayMatch_ledger _ _ _ _ _

theorem placeOrderCore_orderId (db : DB) (u mid sel : Nat) (side : Side)
    (pr st : ℚ) (wallet : Wallet) :
    (placeOrderCore db u mid sel side pr st wallet).2.orderId = db.nextOrderId := by
  unfold placeOrderCore
  cases side <;> rfl

/-- When `placeOrderCore` generates no trade, the `MarketExposure` table is
untouched. -/
theorem placeOrderCore_me_nil (db : DB) (u mid sel : Nat) (side : Side)
    (pr st : ℚ) (wallet : Wallet)
    (h : (placeOrderCore db u mid sel side pr st wallet).2.trades = []) :
    (placeOrderCore db u mid sel side pr st wallet).1.marketExposures =
      db.marketExposures := by
  cases side
  · have h1 := matchBackOrder_trades_nil _ _ _ _ _ h
    have h2 := congrArg DB.marketExposures h1
    exact h2
  · have h1 := matchLayOrder_trades_nil _ _ _ _ _ h
    have h2 := congrArg DB.marketExposures h1
    exact h2

/-- Inversion of a successful `placeOrder`: every validation passed, the
placing user's wallet exposure grew by the required liability, no wallet
balance changed, and — when no trade was generated — the `MarketExposure`
table is untouched. -/
theorem placeOrder_ok_facts (db : DB) (u mid sel : Nat) (side : Side)
    (pr st : ℚ) (db' : DB) (r : PlaceResult)
    (h : placeOrder db u mid sel side pr st = Except.ok (db', r)) :
    ∃ market wallet,
      findMarket db mid = some market ∧
      market.status = MarketStatus.OPEN ∧
      findWallet db u = some wallet ∧
      0 < st ∧ 1 < pr ∧
      orderLiability side pr st ≤ wallet.balance - wallet.exposure ∧
      (∀ v, walletBalance db' v = walletBalance db v) ∧
      walletExposure db' u = walletExposure db u + orderLiability side pr st ∧
      (∀ v, v ≠ u → walletExposure db' v = walletExposure db v) ∧
      (r.trades = [] → db'.marketExposures = db.marketExposures) := by
  simp only [placeOrder] at h
  split at h
  · exact Except.noConfusion h
  case _ hst =>
  split at h
  · exact Except.noConfusion h
  case _ hpr =>
  split at h
  · exact Except.noConfusion h
  case _ market hmarket =>
  split at h
  · exact Except.noConfusion h
  case _ hstatus =>
  split at h
  · exact Except.noConfusion h
  case _ runner hrunner =>
  split at h
  · exact Except.noConfusion h
  case _ wallet hwallet =>
  split at h
  · exact Except.noConfusion h
  case _ havail =>
  rw [Except.ok.injEq] at h
  have hdb : (placeOrderCore db u mid sel side pr st wallet).1 = db' :=
    congrArg Prod.fst h
  have hres : (placeOrderCore db u mid sel side pr st wallet).2 = r :=
    congrArg Prod.snd h
  have hwuid : wallet.userId = u := findWallet_userId db u wallet hwallet
  refine ⟨market, wallet, hmarket, of_not_not hstatus, hwallet,
    not_le.mp hst, not_le.mp hpr, not_lt.mp havail, ?_, ?_, ?_, ?_⟩
  · intro v
    rw [← hdb,
      walletBalance_congr _ _ (placeOrderCore_wallets db u mid sel side pr st wallet) v]
    exact walletBalance_updateWalletF db u
      (fun w => { w with exposure := w.exposure + orderLiability side pr st }) (fun _ => rfl) (fun _ => rfl) v
  · rw [← hdb,
      walletExposure_congr _ _ (placeOrderCore_wallets db u mid sel side pr st wallet) u]
    unfold walletExposure
    rw [findWallet_updateWalletF_self db u
      (fun w => { w with exposure := w.exposure + orderLiability side pr st }) (fun _ => rfl) wallet hwallet, hwallet]
    rfl
  · intro v hvu
    rw [← hdb,
      walletExposure_congr _ _ (placeOrderCore_wallets db u mid sel side pr st wallet) v]
    unfold walletExposure
    rw [findWallet_updateWalletF_ne db u
      (fun w => { w with exposure := w.exposure + orderLiability side pr st }) (fun _ => rfl) v hvu]
  · intro htr
    rw [← hres] at htr
    rw [← hdb]
    exact placeOrderCore_me_nil db u mid sel side pr st wallet htr

/-- The explicit post-state of user 1 placing BACK @2 × 100 on `baseDB`
(empty book: no match). -/
def dbPlace1X : DB :=
  { wallets := [⟨1, 1000, 100⟩, ⟨2, 1000, 0⟩],
    ledger := [⟨1, -100, LedgerKind.EXPOSURE_LOCK, 1000⟩],
    marketExposures := [],
    sportMatches := [⟨10, MatchStatus.LIVE⟩],
    markets := [⟨20, 10, MarketStatus.OPEN⟩],
    runners := [⟨30, 20, 7, none⟩, ⟨31, 20, 8, none⟩],
    orders := [⟨100, 1, 20, 30, Side.BACK, 2, 100, 0, 100, 100, OrderStatus.OPEN, 0⟩],
    trades := [],
    nextOrderId := 101,
    nextTradeId := 200,
    now := 1 }

/-- The result record of that placement. -/
def resPlace1 : PlaceResult := ⟨100, [], 0, 100, OrderStatus.OPEN⟩

theorem placeOrder_baseDB_eval :
    placeOrder baseDB 1 20 30 Side.BACK 2 100 = Except.ok (dbPlace1X, resPlace1) := by
  norm_num [placeOrder, placeOrderCore, placeOrderLock, baseDB, dbPlace1X, resPlace1, orderLiability,
    findMarket, findWallet, updateWalletF, addLedger, matchBackOrder, backCandidates,
    runBackMatch, priceAscThenTime, List.find?, List.filter, PlaceResult.mk.injEq,
    DB.mk.injEq]

/-- C10: order placement and the matching it triggers never change any
wallet's balance: a successful `placeOrder` leaves `walletBalance`
unchanged for every user (placement locks exposure only; matching touches
orders, trades and MarketExposure rows; ledger rows record but do not
move balances). -/
theorem C10_placeOrder_balance_frame (db : DB) (u mid sel : Nat) (side : Side)
    (pr st : ℚ) (db' : DB) (r : PlaceResult) (v : Nat)
    (h : placeOrder db u mid sel side pr st = Except.ok (db', r)) :
    walletBalance db' v = walletBalance db v := by
  obtain ⟨m, w, _, _, _, _, _, _, hbal, _, _, _⟩ :=
    placeOrder_ok_facts db u mid sel side pr st db' r h
  exact hbal v

/-- Witness for `C10_placeOrder_balance_frame` at the `baseDB` placement. -/
theorem C10_placeOrder_balance_frame_witness :
    placeOrder baseDB 1 20 30 Side.BACK 2 100 = Except.ok (dbPlace1X, resPlace1) ∧
    walletBalance dbPlace1X 1 = walletBalance baseDB 1 :=
  ⟨placeOrder_baseDB_eval,
   C10_placeOrder_balance_frame baseDB 1 20 30 Side.BACK 2 100 dbPlace1X resPlace1 1
     placeOrder_baseDB_eval⟩

/-- C4 (amended): the operations do not keep wallet exposure equal to the
user's MarketExposure sum.  A successful placement that matches nothing
increments the placing user's wallet exposure by the locked liability
while leaving the whole `MarketExposure` table — and hence every user's
`MarketExposure` sum — unchanged, so after placement into a previously
reconciled state the two quantities differ by the liability. -/
theorem C4_amended (db : DB) (u mid sel : Nat) (side : Side) (pr st : ℚ)
    (db' : DB) (r : PlaceResult)
    (h : placeOrder db u mid sel side pr st = Except.ok (db', r))
    (htr : r.trades = []) :
    walletExposure db' u = walletExposure db u + orderLiability side pr st ∧
    db'.marketExposures = db.marketExposures ∧
    (∀ v, meSum db' v = meSum db v) := by
  obtain ⟨m, w, _, _, _, _, _, _, _, hexp, _, hme⟩ :=
    placeOrder_ok_facts db u mid sel side pr st db' r h
  refine ⟨hexp, hme htr, fun v => ?_⟩
  unfold meSum
  rw [hme htr]

/-- Witness for `C4_amended` at the `baseDB` placement. -/
theorem C4_amended_witness :
    (placeOrder baseDB 1 20 30 Side.BACK 2 100 = Except.ok (dbPlace1X, resPlace1) ∧
     resPlace1.trades = []) ∧
    (walletExposure dbPlace1X 1 =
       walletExposure baseDB 1 + orderLiability Side.BACK 2 100 ∧
     dbPlace1X.marketExposures = baseDB.marketExposures ∧
     (∀ v, meSum dbPlace1X v = meSum baseDB v)) :=
  ⟨⟨placeOrder_baseDB_eval, rfl⟩,
   C4_amended baseDB 1 20 30 Side.BACK 2 100 dbPlace1X resPlace1
     placeOrder_baseDB_eval rfl⟩

/-- C8: a placement that fails because the market is not OPEN, or because
`availableBalance = balance − exposure` is below the required liability,
returns the corresponding `ApiError` instead of an `.ok` state: the thrown
error aborts the `$transaction`, so nothing — order, ledger entry, wallet —
is written, and the error is surfaced to the caller. -/
theorem C8_placement_failure :
    (∀ (db : DB) (u mid sel : Nat) (side : Side) (pr st : ℚ) (market : Market),
      0 < st → 1 < pr →
      findMarket db mid = some market →
      market.status ≠ MarketStatus.OPEN →
      placeOrder db u mid sel side pr st =
        Except.error ⟨400, "Market is not OPEN"⟩) ∧
    (∀ (db : DB) (u mid sel : Nat) (side : Side) (pr st : ℚ)
       (market : Market) (runner : Runner) (wallet : Wallet),
      0 < st → 1 < pr →
      findMarket db mid = some market →
      market.status = MarketStatus.OPEN →
      db.runners.find? (fun rr => decide (rr.id = sel ∧ rr.marketId = mid)) =
        some runner →
      findWallet db u = some wallet →
      wallet.balance - wallet.exposure < orderLiability side pr st →
      placeOrder db u mid sel side pr st =
        Except.error ⟨400, "Insufficient balance"⟩) := by
  constructor
  · intro db u mid sel side pr st market hst hpr hmarket hne
    simp only [placeOrder, hmarket]
    rw [if_neg (not_le.mpr hst), if_neg (not_le.mpr hpr), if_pos hne]
  · intro db u mid sel side pr st market runner wallet hst hpr hmarket hopen
      hrunner hwallet hlt
    simp only [placeOrder, hmarket, hrunner, hwallet]
    rw [if_neg (not_le.mpr hst), if_neg (not_le.mpr hpr),
      if_neg (not_not_intro hopen), if_pos hlt]

/-- Witness for `C8_placement_failure`: a CLOSED market rejects placement,
and a stake beyond the available balance is rejected on an OPEN market. -/
theorem C8_placement_failure_witness :
    (findMarket dbClosed 20 = some ⟨20, 10, MarketStatus.CLOSED⟩ ∧
     placeOrder dbClosed 1 20 30 Side.BACK 2 100 =
       Except.error ⟨400, "Market is not OPEN"⟩) ∧
    (findWallet baseDB 1 = some ⟨1, 1000, 0⟩ ∧
     placeOrder baseDB 1 20 30 Side.BACK 2 2000 =
       Except.error ⟨400, "Insufficient balance"⟩) :=
  ⟨⟨rfl,
    C8_placement_failure.1 dbClosed 1 20 30 Side.BACK 2 100
      ⟨20, 10, MarketStatus.CLOSED⟩ (by norm_num) (by norm_num) rfl (by decide)⟩,
   ⟨rfl,
    C8_placement_failure.2 baseDB 1 20 30 Side.BACK 2 2000
      ⟨20, 10, MarketStatus.OPEN⟩ ⟨30, 20, 7, none⟩ ⟨1, 1000, 0⟩
      (by norm_num) (by norm_num) rfl rfl rfl rfl (by norm_num [orderLiability])⟩⟩

/-- C5 (amended): refund settlement credits the BACK user `stake` and the
LAY user `(price−1)·stake`, but releases no exposure at all: every
wallet's exposure and every `MarketExposure` row is unchanged, so a user
whose only activity was fully matched trades keeps the exposure locked at
placement (it does not return to 0). -/
theorem C5_amended (db : DB) (t : Trade) (bo lo : Order)
    (hb : findOrder db t.backOrderId = some bo)
    (hl : findOrder db t.layOrderId = some lo)
    (hwb : (findWallet db bo.userId).isSome = true)
    (hwl : (findWallet db lo.userId).isSome = true)
    (hne : bo.userId ≠ lo.userId) :
    walletBalance (refundTrade db t) bo.userId =
      walletBalance db bo.userId + t.stake ∧
    walletBalance (refundTrade db t) lo.userId =
      walletBalance db lo.userId + (t.price - 1) * t.stake ∧
    (∀ v, walletExposure (refundTrade db t) v = walletExposure db v) ∧
    (refundTrade db t).marketExposures = db.marketExposures := by
  have hR : refundTrade db t =
      markTradeSettled
        (creditWallet (creditWallet db bo.userId t.stake)
          lo.userId ((t.price - 1) * t.stake)) t.id := by
    unfold refundTrade
    rw [hb, hl]
  have hne' : lo.userId ≠ bo.userId := fun h => hne h.symm
  refine ⟨?_, ?_, ?_, ?_⟩
  · rw [hR, walletBalance_congr _ _ (markTradeSettled_wallets _ _),
      walletBalance_creditWallet_ne _ _ _ _ hne,
      walletBalance_creditWallet_self db bo.userId _ hwb]
  · rw [hR, walletBalance_congr _ _ (markTradeSettled_wallets _ _),
      walletBalance_creditWallet_self _ lo.userId _ ?h1,
      walletBalance_creditWallet_ne _ _ _ _ hne']
    case h1 =>
      rw [findWallet_creditWallet_ne _ _ _ _ hne']
      exact hwl
  · intro v
    rw [hR, walletExposure_congr _ _ (markTradeSettled_wallets _ _),
      walletExposure_creditWallet, walletExposure_creditWallet]
  · rw [hR]
    rfl

/-- Witness for `C5_amended` at the concrete `settleDB` scenario. -/
theorem C5_amended_witness :
    (findOrder settleDB settleTrade0.backOrderId = some backOrd0 ∧
     findOrder settleDB settleTrade0.layOrderId = some layOrd0 ∧
     backOrd0.userId ≠ layOrd0.userId) ∧
    (walletBalance (refundTrade settleDB settleTrade0) backOrd0.userId =
       walletBalance settleDB backOrd0.userId + settleTrade0.stake ∧
     walletBalance (refundTrade settleDB settleTrade0) layOrd0.userId =
       walletBalance settleDB layOrd0.userId +
         (settleTrade0.price - 1) * settleTrade0.stake ∧
     (∀ v, walletExposure (refundTrade settleDB settleTrade0) v =
        walletExposure settleDB v) ∧
     (refundTrade settleDB settleTrade0).marketExposures =
       settleDB.marketExposures) :=
  ⟨⟨rfl, rfl, by decide⟩,
   C5_amended settleDB settleTrade0 backOrd0 layOrd0 rfl rfl rfl rfl (by decide)⟩

theorem mem_backCandidates (db : DB) (s : Nat) (p : ℚ) (o : Order) :
    o ∈ backCandidates db s p ↔
      o ∈ db.orders ∧ o.selectionId = s ∧ o.side = Side.LAY ∧
        (o.status = OrderStatus.OPEN ∨ o.status = OrderStatus.PARTIAL) ∧
        o.price ≤ p := by
  unfold backCandidates
  rw [(List.perm_insertionSort priceAscThenTime _).mem_iff]
  simp [List.mem_filter, and_assoc]

theorem mem_layCandidates (db : DB) (s : Nat) (p : ℚ) (o : Order) :
    o ∈ layCandidates db s p ↔
      o ∈ db.orders ∧ o.selectionId = s ∧ o.side = Side.BACK ∧
        (o.status = OrderStatus.OPEN ∨ o.status = OrderStatus.PARTIAL) ∧
        p ≤ o.price := by
  unfold layCandidates
  rw [(List.perm_insertionSort priceDescThenTime _).mem_iff]
  simp [List.mem_filter, and_assoc]

theorem runBackMatch_trades_shape (i s : Nat) :
    ∀ (cands : List Order) (rem : ℚ) (db : DB),
      ∀ t ∈ (runBackMatch i s rem cands db).2.2,
        t.backOrderId = i ∧ t.selectionId = s ∧
          ∃ c ∈ cands, t.layOrderId = c.id ∧ t.price = c.price := by
  intro cands
  induction cands with
  | nil =>
    intro rem db t ht
    exact absurd ht (List.not_mem_nil t)
  | cons c rest ih =>
    intro rem db t ht
    by_cases hr : rem ≤ 0
    · simp only [runBackMatch, if_pos hr] at ht
      exact absurd ht (List.not_mem_nil t)
    · simp only [runBackMatch, if_neg hr] at ht
      rcases List.mem_cons.mp ht with h1 | h1
      · subst h1
        exact ⟨rfl, rfl, c, List.mem_cons_self c rest, rfl, rfl⟩
      · obtain ⟨hbo, hsel, c', hc', hlo, hpr⟩ := ih _ _ t h1
        exact ⟨hbo, hsel, c', List.mem_cons_of_mem c hc', hlo, hpr⟩

theorem runLayMatch_trades_shape (i s : Nat) :
    ∀ (cands : List Order) (rem : ℚ) (db : DB),
      ∀ t ∈ (runLayMatch i s rem cands db).2.2,
        t.layOrderId = i ∧ t.selectionId = s ∧
          ∃ c ∈ cands, t.backOrderId = c.id ∧ t.price = c.price := by
  intro cands
  induction cands with
  | nil =>
    intro rem db t ht
    exact absurd ht (List.not_mem_nil t)
  | cons c rest ih =>
    intro rem db t ht
    by_cases hr : rem ≤ 0
    · simp only [runLayMatch, if_pos hr] at ht
      exact absurd ht (List.not_mem_nil t)
    · simp only [runLayMatch, if_neg hr] at ht
      rcases List.mem_cons.mp ht with h1 | h1
      · subst h1
        exact ⟨rfl, rfl, c, List.mem_cons_self c rest, rfl, rfl⟩
      · obtain ⟨hbo, hsel, c', hc', hlo, hpr⟩ := ih _ _ t h1
        exact ⟨hbo, hsel, c', List.mem_cons_of_mem c hc', hlo, hpr⟩

/-- C6 (amended): every trade the engine creates references the incoming
order on its own side and a resting order of the opposite side (a BACK and
a LAY order), at the resting order's price; but the candidate query has no
owner filter, so nothing prevents the two orders from belonging to the
same user. -/
theorem C6_amended :
    (∀ (db : DB) (i s : Nat) (p st : ℚ),
      ∀ t ∈ (matchBackOrder db i s p st).2.trades,
        t.backOrderId = i ∧
          ∃ c ∈ db.orders, t.layOrderId = c.id ∧ c.side = Side.LAY ∧
            t.price = c.price) ∧
    (∀ (db : DB) (i s : Nat) (p st : ℚ),
      ∀ t ∈ (matchLayOrder db i s p st).2.trades,
        t.layOrderId = i ∧
          ∃ c ∈ db.orders, t.backOrderId = c.id ∧ c.side = Side.BACK ∧
            t.price = c.price) := by
  constructor
  · intro db i s p st t ht
    obtain ⟨hbo, hsel, c, hc, hlo, hpr⟩ :=
      runBackMatch_trades_shape i s (backCandidates db s p) st db t ht
    obtain ⟨hcmem, _, hside, _, _⟩ := (mem_backCandidates db s p c).mp hc
    exact ⟨hbo, c, hcmem, hlo, hside, hpr⟩
  · intro db i s p st t ht
    obtain ⟨hbo, hsel, c, hc, hlo, hpr⟩ :=
      runLayMatch_trades_shape i s (layCandidates db s p) st db t ht
    obtain ⟨hcmem, _, hside, _, _⟩ := (mem_layCandidates db s p c).mp hc
    exact ⟨hbo, c, hcmem, hlo, hside, hpr⟩

/-- Witness for `C6_amended` at the concrete `meDB` scenario. -/
theorem C6_amended_witness :
    ((⟨200, 101, 100, 30, 3, 10, false⟩ : Trade) ∈
      (matchBackOrder meDB 101 30 3 10).2.trades) ∧
    ((⟨200, 101, 100, 30, 3, 10, false⟩ : Trade).backOrderId = 101 ∧
     ∃ c ∈ meDB.orders,
       (⟨200, 101, 100, 30, 3, 10, false⟩ : Trade).layOrderId = c.id ∧
       c.side = Side.LAY ∧
       (⟨200, 101, 100, 30, 3, 10, false⟩ : Trade).price = c.price) := by
  have hmem : (⟨200, 101, 100, 30, 3, 10, false⟩ : Trade) ∈
      (matchBackOrder meDB 101 30 3 10).2.trades := by
    norm_num [matchBackOrder, backCandidates, runBackMatch, backMatchStep,
      adjustExposure, upsertME, meDB, restLay0, priceAscThenTime, List.filter]
  exact ⟨hmem, C6_amended.1 meDB 101 30 3 10 _ hmem⟩

theorem findMarket_congr (db1 db2 : DB) (h : db1.markets = db2.markets)
    (mid : Nat) : findMarket db1 mid = findMarket db2 mid := by
  unfold findMarket
  rw [h]

theorem settleTrade_markets (db : DB) (t : Trade) (oc : Outcome) :
    (settleTrade db t oc).markets = db.markets := by
  unfold settleTrade
  split
  · split <;> rfl
  · rfl

theorem refundTrade_markets (db : DB) (t : Trade) :
    (refundTrade db t).markets = db.markets := by
  unfold refundTrade
  split <;> rfl

theorem settleTradeByWinner_markets (db : DB) (t : Trade) :
    (settleTradeByWinner db t).markets = db.markets := by
  unfold settleTradeByWinner
  split
  · exact refundTrade_markets _ _
  · exact settleTrade_markets _ _ _
  · exact settleTrade_markets _ _ _
  · rfl

theorem cancelOrderOnClose_markets (db : DB) (m : Nat) (o : Order) :
    (cancelOrderOnClose db m o).markets = db.markets := rfl

theorem forceSettleTrade_markets (db : DB) (t : Trade) :
    (forceSettleTrade db t).markets = db.markets := by
  unfold forceSettleTrade
  split
  · cases hiw : ((db.runners.find? fun r =>
        decide (r.id = t.selectionId)).map Runner.isWinner).getD none with
    | none => rfl
    | some b => cases b <;> rfl
  · rfl

theorem foldl_markets_eq {α : Type} (f : DB → α → DB)
    (hf : ∀ d a, (f d a).markets = d.markets) :
    ∀ (l : List α) (acc : DB), (l.foldl f acc).markets = acc.markets := by
  intro l
  induction l with
  | nil => intro acc; rfl
  | cons x xs ih =>
    intro acc
    rw [List.foldl_cons, ih, hf]

theorem cancelOpenOrders_markets (db : DB) (m : Nat) :
    (cancelOpenOrders db m).markets = db.markets := by
  unfold cancelOpenOrders
  exact foldl_markets_eq _ (fun d o => cancelOrderOnClose_markets d m o) _ db

theorem setMarketStatus_statusOf (db : DB) (mid : Nat) (status : MarketStatus)
    (m : Market) (hm : findMarket db mid = some m) :
    marketStatusOf (setMarketStatus db mid status) mid = some status := by
  unfold marketStatusOf setMarketStatus
  rw [findMarket_map_status db _ (fun x => by by_cases hx : x.id = mid <;> simp [hx]) mid, hm]
  have hid := findMarket_id db mid m hm
  simp [hid]

theorem settleOneMarket_markets (db : DB) (w : Option Nat) (m' : Nat) :
    (settleOneMarket db w m').markets =
      db.markets.map fun m =>
        if m.id = m' then { m with status := MarketStatus.SETTLED } else m := by
  unfold settleOneMarket
  rw [cancelOpenOrders_markets,
    foldl_markets_eq _ settleTradeByWinner_markets]

theorem settleOneMarket_statusOf_settled (db : DB) (w : Option Nat) (m' mid : Nat)
    (h : marketStatusOf db mid = some MarketStatus.SETTLED) :
    marketStatusOf (settleOneMarket db w m') mid = some MarketStatus.SETTLED := by
  unfold marketStatusOf at *
  rw [findMarket_congr (settleOneMarket db w m')
      { db with markets := db.markets.map fun m =>
          if m.id = m' then { m with status := MarketStatus.SETTLED } else m }
      (settleOneMarket_markets db w m') mid,
    findMarket_map_status db _ (fun x => by by_cases hx : x.id = m' <;> simp [hx]) mid]
  cases hf : findMarket db mid with
  | none => rw [hf] at h; exact absurd h (by simp)
  | some m =>
    rw [hf] at h
    simp only [Option.map_some', Option.some.injEq] at h
    simp only [Option.map_some', Option.some.injEq]
    by_cases hx : m.id = m'
    · simp [hx]
    · simp [hx, h]

theorem settleOneMarket_statusOf_self (db : DB) (w : Option Nat) (mid : Nat)
    (m : Market) (hm : findMarket db mid = some m) :
    marketStatusOf (settleOneMarket db w mid) mid = some MarketStatus.SETTLED := by
  unfold marketStatusOf
  rw [findMarket_congr (settleOneMarket db w mid)
      { db with markets := db.markets.map fun x =>
          if x.id = mid then { x with status := MarketStatus.SETTLED } else x }
      (settleOneMarket_markets db w mid) mid,
    findMarket_map_status db _ (fun x => by by_cases hx : x.id = mid <;> simp [hx]) mid,
    hm]
  have hid := findMarket_id db mid m hm
  simp [hid]

theorem settleOneMarket_findMarket_isSome (db : DB) (w : Option Nat) (m' mid : Nat)
    (h : (findMarket db mid).isSome = true) :
    (findMarket (settleOneMarket db w m') mid).isSome = true := by
  rw [findMarket_congr (settleOneMarket db w m')
      { db with markets := db.markets.map fun x =>
          if x.id = m' then { x with status := MarketStatus.SETTLED } else x }
      (settleOneMarket_markets db w m') mid,
    findMarket_map_status db _ (fun x => by by_cases hx : x.id = m' <;> simp [hx]) mid]
  cases hf : findMarket db mid with
  | none => rw [hf] at h; exact absurd h (by simp)
  | some m => simp

theorem foldl_settleOne_settled (w : Option Nat) (mid : Nat) :
    ∀ (mids : List Nat) (acc : DB),
      marketStatusOf acc mid = some MarketStatus.SETTLED →
      marketStatusOf (mids.foldl (fun a x => settleOneMarket a w x) acc) mid =
        some MarketStatus.SETTLED := by
  intro mids
  induction mids with
  | nil => intro acc h; exact h
  | cons a rest ih =>
    intro acc h
    rw [List.foldl_cons]
    exact ih _ (settleOneMarket_statusOf_settled acc w a mid h)

theorem foldl_settleOne_mem (w : Option Nat) (mid : Nat) :
    ∀ (mids : List Nat) (acc : DB),
      mid ∈ mids → (findMarket acc mid).isSome = true →
      marketStatusOf (mids.foldl (fun a x => settleOneMarket a w x) acc) mid =
        some MarketStatus.SETTLED := by
  intro mids
  induction mids with
  | nil => intro acc hmem; exact absurd hmem (List.not_mem_nil mid)
  | cons a rest ih =>
    intro acc hmem hsome
    rw [List.foldl_cons]
    rcases List.mem_cons.mp hmem with h1 | h1
    · subst h1
      obtain ⟨m, hm⟩ := Option.isSome_iff_exists.mp hsome
      exact foldl_settleOne_settled w mid rest _
        (settleOneMarket_statusOf_self acc w mid m hm)
    · exact ih _ h1 (settleOneMarket_findMarket_isSome acc w a mid hsome)

theorem findMarket_foldl_settle (l : List Trade) (db : DB) (mid : Nat) :
    findMarket (l.foldl forceSettleTrade db) mid = findMarket db mid :=
  findMarket_congr _ _ (foldl_markets_eq _ forceSettleTrade_markets l db) mid

theorem findMarket_foldl_cancel (l : List Order) (db : DB) (mid mkt : Nat) :
    findMarket (l.foldl (fun a o => cancelOrderOnClose a mkt o) db) mid =
      findMarket db mid :=
  findMarket_congr _ _
    (foldl_markets_eq _ (fun d o => cancelOrderOnClose_markets d mkt o) l db) mid

/-- C7 (amended): the admin status endpoint performs no state-machine
check: it sets any existing market to any of OPEN, SUSPENDED or CLOSED
regardless of the current status (including CLOSED → OPEN and transitions
out of SETTLED), rejecting only target values outside that set (SETTLED
cannot be requested).  The only invalid-state failure is force-closing an
already SETTLED market; otherwise force-close always ends with the market
SETTLED.  Automatic settlement moves OPEN or SUSPENDED markets directly to
SETTLED without passing through CLOSED. -/
theorem C7_amended :
    (∀ (db : DB) (mid : Nat) (m : Market) (status : MarketStatus),
      findMarket db mid = some m →
      (status = MarketStatus.OPEN ∨ status = MarketStatus.SUSPENDED ∨
        status = MarketStatus.CLOSED) →
      updateMarketStatus db mid status =
        Except.ok (setMarketStatus db mid status, status) ∧
      marketStatusOf (setMarketStatus db mid status) mid = some status) ∧
    (∀ (db : DB) (mid : Nat),
      updateMarketStatus db mid MarketStatus.SETTLED =
        Except.error ⟨400, "status must be OPEN, SUSPENDED, or CLOSED"⟩) ∧
    (∀ (db : DB) (mid : Nat) (m : Market) (ws : List Nat),
      findMarket db mid = some m → m.status = MarketStatus.SETTLED →
      forceCloseMarket db mid ws =
        Except.error ⟨400, "Market is already settled"⟩) ∧
    (∀ (db : DB) (mid : Nat) (m : Market) (ws : List Nat),
      findMarket db mid = some m → m.status ≠ MarketStatus.SETTLED →
      ∃ (db' : DB) (c t : Nat),
        forceCloseMarket db mid ws = Except.ok (db', c, t) ∧
        marketStatusOf db' mid = some MarketStatus.SETTLED) ∧
    (∀ (db : DB) (matchId : Nat) (teamA teamB : ScoreEntry)
       (rest : List ScoreEntry) (mid : Nat) (m : Market),
      findMarket db mid = some m → m.matchId = matchId →
      (m.status = MarketStatus.OPEN ∨ m.status = MarketStatus.SUSPENDED) →
      marketStatusOf (settleMatch db matchId (teamA :: teamB :: rest)) mid =
        some MarketStatus.SETTLED) := by
  refine ⟨?_, ?_, ?_, ?_, ?_⟩
  · intro db mid m status hm hval
    have hcond : ¬(status ≠ MarketStatus.OPEN ∧ status ≠ MarketStatus.SUSPENDED ∧
        status ≠ MarketStatus.CLOSED) := by
      rcases hval with h | h | h <;> subst h <;> simp
    constructor
    · unfold updateMarketStatus
      rw [if_neg hcond]
      simp only [hm]
      rfl
    · exact setMarketStatus_statusOf db mid status m hm
  · intro db mid
    unfold updateMarketStatus
    rw [if_pos (by exact ⟨by simp, by simp, by simp⟩)]
  · intro db mid m ws hm hs
    simp only [forceCloseMarket, hm]
    rw [if_pos hs]
  · intro db mid m ws hm hs
    have base : findMarket
        { db with markets := db.markets.map fun x =>
            if x.id = mid then { x with status := MarketStatus.CLOSED } else x } mid =
        some { m with status := MarketStatus.CLOSED } := by
      rw [findMarket_map_status db _
        (fun x => by by_cases hx : x.id = mid <;> simp [hx]) mid, hm]
      have hid := findMarket_id db mid m hm
      simp [hid]
    simp only [forceCloseMarket, hm]
    rw [if_neg hs]
    refine ⟨_, _, _, rfl, ?_⟩
    refine setMarketStatus_statusOf _ mid MarketStatus.SETTLED
      { m with status := MarketStatus.CLOSED } ?_
    exact (findMarket_foldl_settle _ _ mid).trans
      ((findMarket_foldl_cancel _ _ mid mid).trans base)
  · intro db matchId teamA teamB rest mid m hm hmatch hstat
    simp only [settleMatch]
    refine foldl_settleOne_mem _ mid _ _ ?_ ?_
    · have hid := findMarket_id db mid m hm
      have hmem : m ∈ db.markets := List.mem_of_find?_eq_some hm
      refine List.mem_map.mpr ⟨m, List.mem_filter.mpr ⟨hmem, ?_⟩, hid⟩
      simp [hmatch, hstat]
    · show (findMarket _ mid).isSome = true
      have : findMarket
          { db with sportMatches := db.sportMatches.map fun x =>
              if x.id = matchId then { x with status := MatchStatus.COMPLETED }
              else x } mid = some m := hm
      rw [this]
      rfl

theorem map_id_of_mem {α : Type} (l : List α) (f : α → α)
    (h : ∀ x ∈ l, f x = x) : l.map f = l := by
  induction l with
  | nil => rfl
  | cons x xs ih =>
    simp only [List.map_cons]
    rw [h x (List.mem_cons_self x xs),
      ih (fun y hy => h y (List.mem_cons_of_mem x hy))]

/-- The side a candidate order must have to match an incoming order. -/
def oppositeSide : Side → Side
  | Side.BACK => Side.LAY
  | Side.LAY => Side.BACK

theorem backCandidates_nil (db : DB) (s : Nat) (p : ℚ)
    (h : ∀ o ∈ db.orders, ¬(o.selectionId = s ∧ o.side = Side.LAY)) :
    backCandidates db s p = [] := by
  unfold backCandidates
  rw [List.filter_eq_nil_iff.mpr ?_]
  · rfl
  · intro o ho
    simp only [decide_eq_true_eq]
    rintro ⟨h1, h2, -, -⟩
    exact h o ho ⟨h1, h2⟩

theorem layCandidates_nil (db : DB) (s : Nat) (p : ℚ)
    (h : ∀ o ∈ db.orders, ¬(o.selectionId = s ∧ o.side = Side.BACK)) :
    layCandidates db s p = [] := by
  unfold layCandidates
  rw [List.filter_eq_nil_iff.mpr ?_]
  · rfl
  · intro o ho
    simp only [decide_eq_true_eq]
    rintro ⟨h1, h2, -, -⟩
    exact h o ho ⟨h1, h2⟩

theorem matchBackOrder_empty (db : DB) (i s : Nat) (p st : ℚ)
    (h : backCandidates db s p = []) :
    matchBackOrder db i s p st = (db, ⟨st - st, st, []⟩) := by
  unfold matchBackOrder
  rw [h]
  rfl

theorem matchLayOrder_empty (db : DB) (i s : Nat) (p st : ℚ)
    (h : layCandidates db s p = []) :
    matchLayOrder db i s p st = (db, ⟨st - st, st, []⟩) := by
  unfold matchLayOrder
  rw [h]
  rfl

theorem placeOrderLock_orders (db : DB) (u mid sel : Nat) (side : Side)
    (pr st : ℚ) (wallet : Wallet) :
    (placeOrderLock db u mid sel side pr st wallet).orders =
      db.orders ++ [⟨db.nextOrderId, u, mid, sel, side, pr, st, 0, st,
        orderLiability side pr st, OrderStatus.OPEN, db.now⟩] := rfl

theorem placeOrderLock_ledger (db : DB) (u mid sel : Nat) (side : Side)
    (pr st : ℚ) (wallet : Wallet) :
    (placeOrderLock db u mid sel side pr st wallet).ledger =
      db.ledger ++ [⟨u, -(orderLiability side pr st),
        LedgerKind.EXPOSURE_LOCK, wallet.balance⟩] := rfl

theorem placeOrderLock_wallets (db : DB) (u mid sel : Nat) (side : Side)
    (pr st : ℚ) (wallet : Wallet) :
    (placeOrderLock db u mid sel side pr st wallet).wallets =
      (updateWalletF db u fun w =>
        { w with exposure := w.exposure + orderLiability side pr st }).wallets := rfl

/-- The state after placing an order that matches nothing: the lock step's
state with the new order's fill state rewritten by the engine's (empty)
result. -/
def postPlaceNoMatch (db : DB) (u mid sel : Nat) (side : Side) (pr st : ℚ)
    (wallet : Wallet) : DB :=
  { placeOrderLock db u mid sel side pr st wallet with
    orders := (placeOrderLock db u mid sel side pr st wallet).orders.map fun o =>
      if o.id = db.nextOrderId then
        { o with matchedStake := st - st, remainingStake := st,
                 status := OrderStatus.OPEN }
      else o }

theorem placeOrderCore_noMatch (db : DB) (u mid sel : Nat) (side : Side)
    (pr st : ℚ) (wallet : Wallet) (hst : 0 < st)
    (hempty : ∀ o ∈ db.orders, ¬(o.selectionId = sel ∧ o.side = oppositeSide side)) :
    placeOrderCore db u mid sel side pr st wallet =
      (postPlaceNoMatch db u mid sel side pr st wallet,
       ⟨db.nextOrderId, [], st - st, st, OrderStatus.OPEN⟩) := by
  have hlt0 : ¬(0 : ℚ) < st - st := by simp
  cases side
  · have horders : ∀ o ∈ (placeOrderLock db u mid sel Side.BACK pr st wallet).orders,
        ¬(o.selectionId = sel ∧ o.side = Side.LAY) := by
      rw [placeOrderLock_orders]
      intro o ho
      rcases List.mem_append.mp ho with h1 | h1
      · exact hempty o h1
      · rw [List.mem_singleton.mp h1]
        rintro ⟨-, hside⟩
        exact Side.noConfusion hside
    have hmb := matchBackOrder_empty
      (placeOrderLock db u mid sel Side.BACK pr st wallet)
      db.nextOrderId sel pr st (backCandidates_nil _ _ _ horders)
    simp only [placeOrderCore]
    rw [hmb]
    dsimp only
    rw [if_neg (not_le.mpr hst), if_neg hlt0]
    rfl
  · have horders : ∀ o ∈ (placeOrderLock db u mid sel Side.LAY pr st wallet).orders,
        ¬(o.selectionId = sel ∧ o.side = Side.BACK) := by
      rw [placeOrderLock_orders]
      intro o ho
      rcases List.mem_append.mp ho with h1 | h1
      · exact hempty o h1
      · rw [List.mem_singleton.mp h1]
        rintro ⟨-, hside⟩
        exact Side.noConfusion hside
    have hml := matchLayOrder_empty
      (placeOrderLock db u mid sel Side.LAY pr st wallet)
      db.nextOrderId sel pr st (layCandidates_nil _ _ _ horders)
    simp only [placeOrderCore]
    rw [hml]
    dsimp only
    rw [if_neg (not_le.mpr hst), if_neg hlt0]
    rfl

theorem walletBalance_addLedger (db : DB) (e : LedgerEntry) (v : Nat) :
    walletBalance (addLedger db e) v = walletBalance db v := rfl

theorem walletExposure_addLedger (db : DB) (e : LedgerEntry) (v : Nat) :
    walletExposure (addLedger db e) v = walletExposure db v := rfl

theorem addLedger_ledger (db : DB) (e : LedgerEntry) :
    (addLedger db e).ledger = db.ledger ++ [e] := rfl

theorem walletBalance_lockF (db : DB) (u : Nat) (d : ℚ) (v : Nat) :
    walletBalance (updateWalletF db u fun w =>
      { w with exposure := w.exposure + d }) v = walletBalance db v :=
  walletBalance_updateWalletF db u
    (fun w => { w with exposure := w.exposure + d })
    (fun _ => rfl) (fun _ => rfl) v

theorem walletBalance_releaseF (db : DB) (u : Nat) (d : ℚ) (v : Nat) :
    walletBalance (updateWalletF db u fun w =>
      { w with exposure := w.exposure - d }) v = walletBalance db v :=
  walletBalance_updateWalletF db u
    (fun w => { w with exposure := w.exposure - d })
    (fun _ => rfl) (fun _ => rfl) v

theorem walletExposure_releaseF_self (db : DB) (u : Nat) (d : ℚ) (w : Wallet)
    (hw : findWallet db u = some w) :
    walletExposure (updateWalletF db u fun x =>
      { x with exposure := x.exposure - d }) u = w.exposure - d := by
  unfold walletExposure
  rw [findWallet_updateWalletF_self db u
    (fun x => { x with exposure := x.exposure - d }) (fun _ => rfl) w hw]
  rfl

theorem walletBalance_postPlaceNoMatch (db : DB) (u mid sel : Nat) (side : Side)
    (pr st : ℚ) (wallet : Wallet) (v : Nat) :
    walletBalance (postPlaceNoMatch db u mid sel side pr st wallet) v =
      walletBalance (updateWalletF db u fun w =>
        { w with exposure := w.exposure + orderLiability side pr st }) v :=
  walletBalance_congr _ _ rfl v

theorem findWallet_postPlaceNoMatch (db : DB) (u mid sel : Nat) (side : Side)
    (pr st : ℚ) (wallet : Wallet) (w : Wallet) (hw : findWallet db u = some w) :
    findWallet (postPlaceNoMatch db u mid sel side pr st wallet) u =
      some { w with exposure := w.exposure + orderLiability side pr st } := by
  rw [findWallet_congr (postPlaceNoMatch db u mid sel side pr st wallet)
    (updateWalletF db u fun x =>
      { x with exposure := x.exposure + orderLiability side pr st }) rfl u]
  exact findWallet_updateWalletF_self db u
    (fun x => { x with exposure := x.exposure + orderLiability side pr st })
    (fun _ => rfl) w hw

theorem postPlaceNoMatch_ledger (db : DB) (u mid sel : Nat) (side : Side)
    (pr st : ℚ) (wallet : Wallet) :
    (postPlaceNoMatch db u mid sel side pr st wallet).ledger =
      db.ledger ++ [⟨u, -(orderLiability side pr st),
        LedgerKind.EXPOSURE_LOCK, wallet.balance⟩] := rfl

theorem postPlaceNoMatch_orders (db : DB) (u mid sel : Nat) (side : Side)
    (pr st : ℚ) (wallet : Wallet)
    (hfresh : ∀ o ∈ db.orders, o.id ≠ db.nextOrderId) :
    (postPlaceNoMatch db u mid sel side pr st wallet).orders =
      db.orders ++ [⟨db.nextOrderId, u, mid, sel, side, pr, st, st - st, st,
        orderLiability side pr st, OrderStatus.OPEN, db.now⟩] := by
  show ((placeOrderLock db u mid sel side pr st wallet).orders.map _) = _
  rw [placeOrderLock_orders, List.map_append,
    map_id_of_mem _ _ (fun o ho => if_neg (hfresh o ho))]
  simp

/-- Mark the order with id `oid` CANCELLED (the order-table write of
`cancelOrder`). -/
def cancelMark (db : DB) (oid : Nat) : DB :=
  { db with
    orders := db.orders.map fun o =>
      if o.id = oid then { o with status := OrderStatus.CANCELLED }
      else o }

theorem cancelMark_wallets (db : DB) (oid : Nat) :
    (cancelMark db oid).wallets = db.wallets := rfl

theorem cancelMark_ledger (db : DB) (oid : Nat) :
    (cancelMark db oid).ledger = db.ledger := rfl

theorem walletBalance_cancelMark (db : DB) (oid : Nat) (v : Nat) :
    walletBalance (cancelMark db oid) v = walletBalance db v :=
  walletBalance_congr _ _ rfl v

/-- The state after cancelling the no-match order of `postPlaceNoMatch`:
order CANCELLED, exposure released, EXPOSURE_RELEASE ledger entry. -/
def postCancelNoMatch (db : DB) (u mid sel : Nat) (side : Side) (pr st : ℚ)
    (wallet : Wallet) : DB :=
  let released :=
    match side with
    | Side.BACK => st
    | Side.LAY => (pr - 1) * st
  let db1 := cancelMark (postPlaceNoMatch db u mid sel side pr st wallet)
    db.nextOrderId
  let db2 := updateWalletF db1 u fun w =>
    { w with exposure := w.exposure - released }
  addLedger db2
    { userId := u, amount := released, kind := LedgerKind.EXPOSURE_RELEASE,
      balance := walletBalance db2 u }

/-- The cancel result returned by `cancelOrder` in that scenario. -/
def cancelNoMatchResult (db : DB) (u mid sel : Nat) (side : Side) (pr st : ℚ)
    (wallet : Wallet) : CancelResult :=
  let released :=
    match side with
    | Side.BACK => st
    | Side.LAY => (pr - 1) * st
  let db1 := cancelMark (postPlaceNoMatch db u mid sel side pr st wallet)
    db.nextOrderId
  let db2 := updateWalletF db1 u fun w =>
    { w with exposure := w.exposure - released }
  { orderId := db.nextOrderId, releasedExposure := released,
    newExposure := walletExposure db2 u }

/-- C9: a valid order placed on an empty opposite-side book and then
immediately cancelled by its owner round-trips the wallet: balance and
exposure return to their pre-placement values, the ledger gains an
EXPOSURE_LOCK entry of `−liability` followed by an EXPOSURE_RELEASE entry
of `+liability` (liability = stake for BACK, (price−1)·stake for LAY,
equal magnitudes), and the order ends CANCELLED. -/
theorem C9_place_then_cancel (db : DB) (u mid sel : Nat) (side : Side)
    (pr st : ℚ) (market : Market) (runner : Runner) (wallet : Wallet)
    (hst : 0 < st) (hpr : 1 < pr)
    (hmarket : findMarket db mid = some market)
    (hopen : market.status = MarketStatus.OPEN)
    (hrunner : db.runners.find? (fun rr =>
      decide (rr.id = sel ∧ rr.marketId = mid)) = some runner)
    (hwallet : findWallet db u = some wallet)
    (havail : orderLiability side pr st ≤ wallet.balance - wallet.exposure)
    (hempty : ∀ o ∈ db.orders, ¬(o.selectionId = sel ∧ o.side = oppositeSide side))
    (hfresh : ∀ o ∈ db.orders, o.id ≠ db.nextOrderId) :
    ∃ (db1 : DB) (r : PlaceResult) (c : CancelResult),
      placeOrder db u mid sel side pr st = Except.ok (db1, r) ∧
      r.trades = [] ∧
      cancelOrder db1 u db.nextOrderId =
        Except.ok (postCancelNoMatch db u mid sel side pr st wallet, c) ∧
      walletBalance (postCancelNoMatch db u mid sel side pr st wallet) u =
        walletBalance db u ∧
      walletExposure (postCancelNoMatch db u mid sel side pr st wallet) u =
        walletExposure db u ∧
      (postCancelNoMatch db u mid sel side pr st wallet).ledger = db.ledger ++
        [⟨u, -(orderLiability side pr st), LedgerKind.EXPOSURE_LOCK, wallet.balance⟩,
         ⟨u, orderLiability side pr st, LedgerKind.EXPOSURE_RELEASE, wallet.balance⟩] ∧
      (findOrder (postCancelNoMatch db u mid sel side pr st wallet)
        db.nextOrderId).map Order.status = some OrderStatus.CANCELLED := by
  have hplace : placeOrder db u mid sel side pr st =
      Except.ok (postPlaceNoMatch db u mid sel side pr st wallet,
        ⟨db.nextOrderId, [], st - st, st, OrderStatus.OPEN⟩) := by
    simp only [placeOrder, hmarket, hrunner, hwallet]
    rw [if_neg (not_le.mpr hst), if_neg (not_le.mpr hpr),
      if_neg (not_not_intro hopen), if_neg (not_lt.mpr havail),
      placeOrderCore_noMatch db u mid sel side pr st wallet hst hempty]
  have hords := postPlaceNoMatch_orders db u mid sel side pr st wallet hfresh
  have hfind : (postPlaceNoMatch db u mid sel side pr st wallet).orders.find?
      (fun o => decide (o.id = db.nextOrderId ∧ o.userId = u)) =
      some ⟨db.nextOrderId, u, mid, sel, side, pr, st, st - st, st,
        orderLiability side pr st, OrderStatus.OPEN, db.now⟩ := by
    rw [hords, find?_append_of_none _ _ _ ?hnone]
    · simp [List.find?]
    case hnone =>
      rw [List.find?_eq_none]
      intro o ho
      simp only [decide_eq_true_eq]
      rintro ⟨h1, -⟩
      exact hfresh o ho h1
  have hwb : walletBalance db u = wallet.balance := by
    unfold walletBalance
    rw [hwallet]
    rfl
  have hwe : walletExposure db u = wallet.exposure := by
    unfold walletExposure
    rw [hwallet]
    rfl
  have hrel : (match side with
      | Side.BACK => st
      | Side.LAY => (pr - 1) * st) = orderLiability side pr st := by
    cases side <;> rfl
  have hcan : cancelOrder (postPlaceNoMatch db u mid sel side pr st wallet)
      u db.nextOrderId =
      Except.ok (postCancelNoMatch db u mid sel side pr st wallet,
        cancelNoMatchResult db u mid sel side pr st wallet) := by
    simp only [cancelOrder, hfind]
    rw [if_neg (by simp)]
    exact rfl
  have hfw := findWallet_postPlaceNoMatch db u mid sel side pr st wallet wallet hwallet
  have hfw2 : findWallet (cancelMark (postPlaceNoMatch db u mid sel side pr st
      wallet) db.nextOrderId) u =
      some { wallet with exposure :=
        wallet.exposure + orderLiability side pr st } := hfw
  refine ⟨_, _, _, hplace, rfl, hcan, ?_, ?_, ?_, ?_⟩
  · simp only [postCancelNoMatch]
    rw [walletBalance_addLedger, walletBalance_releaseF, walletBalance_cancelMark,
      walletBalance_postPlaceNoMatch, walletBalance_lockF]
  · simp only [postCancelNoMatch]
    rw [walletExposure_addLedger, walletExposure_releaseF_self _ _ _ _ hfw2, hwe]
    show wallet.exposure + orderLiability side pr st -
      (match side with
       | Side.BACK => st
       | Side.LAY => (pr - 1) * st) = wallet.exposure
    rw [hrel, add_sub_cancel_right]
  · simp only [postCancelNoMatch]
    have hbal2 : walletBalance (updateWalletF (cancelMark
        (postPlaceNoMatch db u mid sel side pr st wallet) db.nextOrderId) u
        fun w => { w with exposure := w.exposure -
          (match side with
           | Side.BACK => st
           | Side.LAY => (pr - 1) * st) }) u = wallet.balance := by
      rw [walletBalance_releaseF, walletBalance_cancelMark,
        walletBalance_postPlaceNoMatch, walletBalance_lockF, hwb]
    rw [addLedger_ledger, updateWalletF_ledger, cancelMark_ledger,
      postPlaceNoMatch_ledger, hbal2, hrel, List.append_assoc]
    rfl
  · have hfind2 : (postPlaceNoMatch db u mid sel side pr st wallet).orders.find?
        (fun o => decide (o.id = db.nextOrderId)) =
        some ⟨db.nextOrderId, u, mid, sel, side, pr, st, st - st, st,
          orderLiability side pr st, OrderStatus.OPEN, db.now⟩ := by
      rw [hords, find?_append_of_none _ _ _ ?hnone2]
      · simp [List.find?]
      case hnone2 =>
        rw [List.find?_eq_none]
        intro o ho
        simp only [decide_eq_true_eq]
        exact hfresh o ho
    show (((postPlaceNoMatch db u mid sel side pr st wallet).orders.map fun o =>
        if o.id = db.nextOrderId then { o with status := OrderStatus.CANCELLED }
        else o).find? (fun o => decide (o.id = db.nextOrderId))).map
      Order.status = some OrderStatus.CANCELLED
    have hpres : ∀ o : Order,
        decide ((if o.id = db.nextOrderId then
            { o with status := OrderStatus.CANCELLED } else o).id =
          db.nextOrderId) = decide (o.id = db.nextOrderId) := by
      intro o
      by_cases ho : o.id = db.nextOrderId <;> simp [ho]
    rw [find?_map_pred_eq
      (fun o => if o.id = db.nextOrderId then
        { o with status := OrderStatus.CANCELLED } else o)
      (fun o => decide (o.id = db.nextOrderId)) hpres
      ((postPlaceNoMatch db u mid sel side pr st wallet).orders)]
    rw [hfind2]
    simp
theorem C9_place_then_cancel_witness :
    (findMarket baseDB 20 = some ⟨20, 10, MarketStatus.OPEN⟩ ∧
     findWallet baseDB 1 = some ⟨1, 1000, 0⟩) ∧
    (∃ (db1 : DB) (r : PlaceResult) (c : CancelResult),
      placeOrder baseDB 1 20 30 Side.BACK 2 100 = Except.ok (db1, r) ∧
      r.trades = [] ∧
      cancelOrder db1 1 baseDB.nextOrderId =
        Except.ok
          (postCancelNoMatch baseDB 1 20 30 Side.BACK 2 100 ⟨1, 1000, 0⟩, c) ∧
      walletBalance (postCancelNoMatch baseDB 1 20 30 Side.BACK 2 100
        ⟨1, 1000, 0⟩) 1 = walletBalance baseDB 1 ∧
      walletExposure (postCancelNoMatch baseDB 1 20 30 Side.BACK 2 100
        ⟨1, 1000, 0⟩) 1 = walletExposure baseDB 1 ∧
      (postCancelNoMatch baseDB 1 20 30 Side.BACK 2 100 ⟨1, 1000, 0⟩).ledger =
        baseDB.ledger ++
          [⟨1, -(orderLiability Side.BACK 2 100), LedgerKind.EXPOSURE_LOCK,
            (Wallet.mk 1 1000 0).balance⟩,
           ⟨1, orderLiability Side.BACK 2 100, LedgerKind.EXPOSURE_RELEASE,
            (Wallet.mk 1 1000 0).balance⟩] ∧
      (findOrder (postCancelNoMatch baseDB 1 20 30 Side.BACK 2 100 ⟨1, 1000, 0⟩)
        baseDB.nextOrderId).map Order.status = some OrderStatus.CANCELLED) :=
  ⟨⟨rfl, rfl⟩,
   C9_place_then_cancel baseDB 1 20 30 Side.BACK 2 100 ⟨20, 10, MarketStatus.OPEN⟩
     ⟨30, 20, 7, none⟩ ⟨1, 1000, 0⟩ (by norm_num) (by norm_num) rfl rfl rfl rfl
     (by norm_num [orderLiability]) (by simp [baseDB]) (by simp [baseDB])⟩
/-- Sum of the stakes of a list of trades. -/
def sumStakes (ts : List Trade) : ℚ := (ts.map Trade.stake).sum

theorem sumStakes_nil : sumStakes [] = 0 := rfl

theorem sumStakes_cons (t : Trade) (l : List Trade) :
    sumStakes (t :: l) = t.stake + sumStakes l := by
  simp [sumStakes]

theorem if_lt_eq_min (a b : ℚ) : (if a < b then a else b) = min a b := by
  rcases le_total a b with h | h
  · rw [min_eq_left h]
    by_cases h2 : a < b
    · exact if_pos h2
    · rw [if_neg h2]
      exact (le_antisymm h (le_of_not_lt h2)).symm
  · rw [min_eq_right h, if_neg (not_lt.mpr h)]

theorem runBackMatch_cons_pos (i s : Nat) (rem : ℚ) (c : Order)
    (rest : List Order) (db : DB) (hr : ¬rem ≤ 0) :
    runBackMatch i s rem (c :: rest) db =
      ((runBackMatch i s (rem - min rem c.remainingStake) rest
          (backMatchStep i s db c (min rem c.remainingStake))).1,
       (runBackMatch i s (rem - min rem c.remainingStake) rest
          (backMatchStep i s db c (min rem c.remainingStake))).2.1,
       ({ id := db.nextTradeId, backOrderId := i, layOrderId := c.id,
          selectionId := s, price := c.price, stake := min rem c.remainingStake,
          settled := false } : Trade) ::
         (runBackMatch i s (rem - min rem c.remainingStake) rest
            (backMatchStep i s db c (min rem c.remainingStake))).2.2) := by
  simp only [runBackMatch, if_neg hr, if_lt_eq_min]

theorem runBackMatch_cons_stop (i s : Nat) (rem : ℚ) (c : Order)
    (rest : List Order) (db : DB) (hr : rem ≤ 0) :
    runBackMatch i s rem (c :: rest) db = (db, rem, []) := by
  simp only [runBackMatch, if_pos hr]

theorem runLayMatch_cons_pos (i s : Nat) (rem : ℚ) (c : Order)
    (rest : List Order) (db : DB) (hr : ¬rem ≤ 0) :
    runLayMatch i s rem (c :: rest) db =
      ((runLayMatch i s (rem - min rem c.remainingStake) rest
          (layMatchStep i s db c (min rem c.remainingStake))).1,
       (runLayMatch i s (rem - min rem c.remainingStake) rest
          (layMatchStep i s db c (min rem c.remainingStake))).2.1,
       ({ id := db.nextTradeId, backOrderId := c.id, layOrderId := i,
          selectionId := s, price := c.price, stake := min rem c.remainingStake,
          settled := false } : Trade) ::
         (runLayMatch i s (rem - min rem c.remainingStake) rest
            (layMatchStep i s db c (min rem c.remainingStake))).2.2) := by
  simp only [runLayMatch, if_neg hr, if_lt_eq_min]

theorem runLayMatch_cons_stop (i s : Nat) (rem : ℚ) (c : Order)
    (rest : List Order) (db : DB) (hr : rem ≤ 0) :
    runLayMatch i s rem (c :: rest) db = (db, rem, []) := by
  simp only [runLayMatch, if_pos hr]

/-- Loop specification of `runBackMatch`: the trades pair up index-by-index
with a prefix of the candidate list, each trade printing at its candidate's
price with stake `min (remaining so far) candidate.remainingStake`; the
final remaining stake is the initial stake minus the sum of trade stakes,
stays nonnegative, and is 0 whenever a candidate was left unconsumed. -/
theorem runBackMatch_loop (i s : Nat) :
    ∀ (cands : List Order) (rem : ℚ) (db : DB), 0 ≤ rem →
      (runBackMatch i s rem cands db).2.2.length ≤ cands.length ∧
      (runBackMatch i s rem cands db).2.1 =
        rem - sumStakes (runBackMatch i s rem cands db).2.2 ∧
      0 ≤ (runBackMatch i s rem cands db).2.1 ∧
      (∀ k (hk : k < (runBackMatch i s rem cands db).2.2.length)
          (hk' : k < cands.length),
        ((runBackMatch i s rem cands db).2.2.get ⟨k, hk⟩).price =
          (cands.get ⟨k, hk'⟩).price ∧
        ((runBackMatch i s rem cands db).2.2.get ⟨k, hk⟩).stake =
          min (rem - sumStakes ((runBackMatch i s rem cands db).2.2.take k))
            (cands.get ⟨k, hk'⟩).remainingStake ∧
        ((runBackMatch i s rem cands db).2.2.get ⟨k, hk⟩).layOrderId =
          (cands.get ⟨k, hk'⟩).id ∧
        ((runBackMatch i s rem cands db).2.2.get ⟨k, hk⟩).backOrderId = i) ∧
      ((runBackMatch i s rem cands db).2.2.length < cands.length →
        (runBackMatch i s rem cands db).2.1 = 0) := by
  intro cands
  induction cands with
  | nil =>
    intro rem db h0
    simp only [runBackMatch]
    exact ⟨Nat.le_refl 0, by rw [sumStakes_nil, sub_zero], h0,
      fun k hk hk' => absurd hk (Nat.not_lt_zero k),
      fun hlt => absurd hlt (Nat.not_lt_zero 0)⟩
  | cons c rest ih =>
    intro rem db h0
    by_cases hr : rem ≤ 0
    · have hrem0 : rem = 0 := le_antisymm hr h0
      rw [runBackMatch_cons_stop i s rem c rest db hr]
      exact ⟨Nat.zero_le _, by rw [sumStakes_nil, sub_zero], h0,
        fun k hk hk' => absurd hk (Nat.not_lt_zero k),
        fun hlt => hrem0⟩
    · have h0' : 0 ≤ rem - min rem c.remainingStake :=
        sub_nonneg.mpr (min_le_left rem c.remainingStake)
      have IH := ih (rem - min rem c.remainingStake)
        (backMatchStep i s db c (min rem c.remainingStake)) h0'
      rw [runBackMatch_cons_pos i s rem c rest db hr]
      rcases hres : runBackMatch i s (rem - min rem c.remainingStake) rest
        (backMatchStep i s db c (min rem c.remainingStake)) with ⟨db2, pair⟩
      rcases pair with ⟨rem2, ts2⟩
      rw [hres] at IH
      obtain ⟨ihlen, ihrem, ihpos, ihidx, ihstop⟩ := IH
      dsimp only at ihlen ihrem ihpos ihidx ihstop ⊢
      refine ⟨Nat.succ_le_succ ihlen, ?_, ihpos, ?_, ?_⟩
      · rw [ihrem, sumStakes_cons, sub_sub]
      · intro k hk hk'
        cases k with
        | zero =>
          refine ⟨rfl, ?_, rfl, rfl⟩
          show min rem c.remainingStake =
            min (rem - sumStakes ([] : List Trade)) c.remainingStake
          rw [sumStakes_nil, sub_zero]
        | succ j =>
          obtain ⟨hp, hstk, hlo, hbo⟩ :=
            ihidx j (Nat.lt_of_succ_lt_succ hk) (Nat.lt_of_succ_lt_succ hk')
          refine ⟨hp, ?_, hlo, hbo⟩
          rw [List.take_succ_cons, sumStakes_cons, ← sub_sub]
          exact hstk
      · intro hlt
        exact ihstop (Nat.lt_of_succ_lt_succ hlt)
/-- Loop specification of `runLayMatch` (mirror of `runBackMatch_loop`). -/
theorem runLayMatch_loop (i s : Nat) :
    ∀ (cands : List Order) (rem : ℚ) (db : DB), 0 ≤ rem →
      (runLayMatch i s rem cands db).2.2.length ≤ cands.length ∧
      (runLayMatch i s rem cands db).2.1 =
        rem - sumStakes (runLayMatch i s rem cands db).2.2 ∧
      0 ≤ (runLayMatch i s rem cands db).2.1 ∧
      (∀ k (hk : k < (runLayMatch i s rem cands db).2.2.length)
          (hk' : k < cands.length),
        ((runLayMatch i s rem cands db).2.2.get ⟨k, hk⟩).price =
          (cands.get ⟨k, hk'⟩).price ∧
        ((runLayMatch i s rem cands db).2.2.get ⟨k, hk⟩).stake =
          min (rem - sumStakes ((runLayMatch i s rem cands db).2.2.take k))
            (cands.get ⟨k, hk'⟩).remainingStake ∧
        ((runLayMatch i s rem cands db).2.2.get ⟨k, hk⟩).backOrderId =
          (cands.get ⟨k, hk'⟩).id ∧
        ((runLayMatch i s rem cands db).2.2.get ⟨k, hk⟩).layOrderId = i) ∧
      ((runLayMatch i s rem cands db).2.2.length < cands.length →
        (runLayMatch i s rem cands db).2.1 = 0) := by
  intro cands
  induction cands with
  | nil =>
    intro rem db h0
    simp only [runLayMatch]
    exact ⟨Nat.le_refl 0, by rw [sumStakes_nil, sub_zero], h0,
      fun k hk hk' => absurd hk (Nat.not_lt_zero k),
      fun hlt => absurd hlt (Nat.not_lt_zero 0)⟩
  | cons c rest ih =>
    intro rem db h0
    by_cases hr : rem ≤ 0
    · have hrem0 : rem = 0 := le_antisymm hr h0
      rw [runLayMatch_cons_stop i s rem c rest db hr]
      exact ⟨Nat.zero_le _, by rw [sumStakes_nil, sub_zero], h0,
        fun k hk hk' => absurd hk (Nat.not_lt_zero k),
        fun hlt => hrem0⟩
    · have h0' : 0 ≤ rem - min rem c.remainingStake :=
        sub_nonneg.mpr (min_le_left rem c.remainingStake)
      have IH := ih (rem - min rem c.remainingStake)
        (layMatchStep i s db c (min rem c.remainingStake)) h0'
      rw [runLayMatch_cons_pos i s rem c rest db hr]
      rcases hres : runLayMatch i s (rem - min rem c.remainingStake) rest
        (layMatchStep i s db c (min rem c.remainingStake)) with ⟨db2, pair⟩
      rcases pair with ⟨rem2, ts2⟩
      rw [hres] at IH
      obtain ⟨ihlen, ihrem, ihpos, ihidx, ihstop⟩ := IH
      dsimp only at ihlen ihrem ihpos ihidx ihstop ⊢
      refine ⟨Nat.succ_le_succ ihlen, ?_, ihpos, ?_, ?_⟩
      · rw [ihrem, sumStakes_cons, sub_sub]
      · intro k hk hk'
        cases k with
        | zero =>
          refine ⟨rfl, ?_, rfl, rfl⟩
          show min rem c.remainingStake =
            min (rem - sumStakes ([] : List Trade)) c.remainingStake
          rw [sumStakes_nil, sub_zero]
        | succ j =>
          obtain ⟨hp, hstk, hbo, hlo⟩ :=
            ihidx j (Nat.lt_of_succ_lt_succ hk) (Nat.lt_of_succ_lt_succ hk')
          refine ⟨hp, ?_, hbo, hlo⟩
          rw [List.take_succ_cons, sumStakes_cons, ← sub_sub]
          exact hstk
      · intro hlt
        exact ihstop (Nat.lt_of_succ_lt_succ hlt)
theorem backCandidates_sorted (db : DB) (s : Nat) (p : ℚ) :
    List.Sorted priceAscThenTime (backCandidates db s p) :=
  List.sorted_insertionSort priceAscThenTime _

theorem layCandidates_sorted (db : DB) (s : Nat) (p : ℚ) :
    List.Sorted priceDescThenTime (layCandidates db s p) :=
  List.sorted_insertionSort priceDescThenTime _
/-- C3: for every incoming order, the matching engine's candidate set is
exactly the set of opposite-side OPEN/PARTIAL orders on the same selection
with compatible price (lay.price ≤ backPrice for an incoming BACK,
back.price ≥ layPrice for an incoming LAY); candidates are consumed
best-price-first (lowest lay price / highest back price) with price ties
broken by oldest createdAt; the trades pair up index-by-index with the
consumed prefix of the candidate list, trade k printing at candidate k's
price with stake `min (remaining before trade k) candidate.remainingStake`
(the remaining before trade k being the incoming stake minus the stakes
already filled); and matching continues until the incoming remaining stake
is 0 or no candidate remains: the final remaining stake is the incoming
stake minus the sum of all trade stakes, never negative, and equals 0
whenever some candidate was left unconsumed. -/
theorem C3_matching :
    (∀ (db : DB) (s : Nat) (p : ℚ) (o : Order),
      o ∈ backCandidates db s p ↔
        o ∈ db.orders ∧ o.selectionId = s ∧ o.side = Side.LAY ∧
          (o.status = OrderStatus.OPEN ∨ o.status = OrderStatus.PARTIAL) ∧
          o.price ≤ p) ∧
    (∀ (db : DB) (s : Nat) (p : ℚ),
      List.Sorted priceAscThenTime (backCandidates db s p)) ∧
    (∀ (db : DB) (i s : Nat) (p st : ℚ), 0 ≤ st →
      (matchBackOrder db i s p st).2.trades.length ≤
        (backCandidates db s p).length ∧
      (matchBackOrder db i s p st).2.remainingStake =
        st - sumStakes (matchBackOrder db i s p st).2.trades ∧
      0 ≤ (matchBackOrder db i s p st).2.remainingStake ∧
      (matchBackOrder db i s p st).2.matchedStake =
        sumStakes (matchBackOrder db i s p st).2.trades ∧
      (∀ k (hk : k < (matchBackOrder db i s p st).2.trades.length)
          (hk' : k < (backCandidates db s p).length),
        ((matchBackOrder db i s p st).2.trades.get ⟨k, hk⟩).price =
          ((backCandidates db s p).get ⟨k, hk'⟩).price ∧
        ((matchBackOrder db i s p st).2.trades.get ⟨k, hk⟩).stake =
          min (st - sumStakes ((matchBackOrder db i s p st).2.trades.take k))
            ((backCandidates db s p).get ⟨k, hk'⟩).remainingStake ∧
        ((matchBackOrder db i s p st).2.trades.get ⟨k, hk⟩).layOrderId =
          ((backCandidates db s p).get ⟨k, hk'⟩).id ∧
        ((matchBackOrder db i s p st).2.trades.get ⟨k, hk⟩).backOrderId = i) ∧
      ((matchBackOrder db i s p st).2.trades.length <
          (backCandidates db s p).length →
        (matchBackOrder db i s p st).2.remainingStake = 0)) ∧
    (∀ (db : DB) (s : Nat) (p : ℚ) (o : Order),
      o ∈ layCandidates db s p ↔
        o ∈ db.orders ∧ o.selectionId = s ∧ o.side = Side.BACK ∧
          (o.status = OrderStatus.OPEN ∨ o.status = OrderStatus.PARTIAL) ∧
          p ≤ o.price) ∧
    (∀ (db : DB) (s : Nat) (p : ℚ),
      List.Sorted priceDescThenTime (layCandidates db s p)) ∧
    (∀ (db : DB) (i s : Nat) (p st : ℚ), 0 ≤ st →
      (matchLayOrder db i s p st).2.trades.length ≤
        (layCandidates db s p).length ∧
      (matchLayOrder db i s p st).2.remainingStake =
        st - sumStakes (matchLayOrder db i s p st).2.trades ∧
      0 ≤ (matchLayOrder db i s p st).2.remainingStake ∧
      (matchLayOrder db i s p st).2.matchedStake =
        sumStakes (matchLayOrder db i s p st).2.trades ∧
      (∀ k (hk : k < (matchLayOrder db i s p st).2.trades.length)
          (hk' : k < (layCandidates db s p).length),
        ((matchLayOrder db i s p st).2.trades.get ⟨k, hk⟩).price =
          ((layCandidates db s p).get ⟨k, hk'⟩).price ∧
        ((matchLayOrder db i s p st).2.trades.get ⟨k, hk⟩).stake =
          min (st - sumStakes ((matchLayOrder db i s p st).2.trades.take k))
            ((layCandidates db s p).get ⟨k, hk'⟩).remainingStake ∧
        ((matchLayOrder db i s p st).2.trades.get ⟨k, hk⟩).backOrderId =
          ((layCandidates db s p).get ⟨k, hk'⟩).id ∧
        ((matchLayOrder db i s p st).2.trades.get ⟨k, hk⟩).layOrderId = i) ∧
      ((matchLayOrder db i s p st).2.trades.length <
          (layCandidates db s p).length →
        (matchLayOrder db i s p st).2.remainingStake = 0)) := by
  refine ⟨mem_backCandidates, backCandidates_sorted, ?_,
    mem_layCandidates, layCandidates_sorted, ?_⟩
  · intro db i s p st hst
    obtain ⟨hlen, hrem, hpos, hidx, hstop⟩ :=
      runBackMatch_loop i s (backCandidates db s p) st db hst
    simp only [matchBackOrder]
    exact ⟨hlen, hrem, hpos, by rw [hrem, sub_sub_cancel], hidx, hstop⟩
  · intro db i s p st hst
    obtain ⟨hlen, hrem, hpos, hidx, hstop⟩ :=
      runLayMatch_loop i s (layCandidates db s p) st db hst
    simp only [matchLayOrder]
    exact ⟨hlen, hrem, hpos, by rw [hrem, sub_sub_cancel], hidx, hstop⟩
